import Mathlib

/-!
Verification development for the pr-review-service repository.

The Go program is a PostgreSQL-backed service that assigns and manages
reviewers for pull requests.  We give a shallow embedding:

* the four tables created by `internal/db/migrate.go` become a `DB` record of
  lists of rows;
* every method of `internal/repo/postgres.go` becomes a pure function
  `args → DB → Except Err α × DB` (the second component is the committed
  state; a transaction that rolls back returns the input state unchanged);
* the `Repo` interface of `internal/service/service.go` becomes a structure
  of such functions, and every service method is translated over an
  arbitrary repository, exactly as the Go code is written against the
  interface;
* `ORDER BY random()` is modelled by an injected `shuffle` function; the
  theorems assume only that it permutes its input;
* `time.Now()` becomes an explicit `now : Nat` parameter;
* Go `error` values become the `Err` type: `Err.noRows` is `sql.ErrNoRows`,
  `Err.msg s` is `errors.New(s)`, and `Err.sqlError s` stands for an error
  surfaced by the database driver itself (for instance a constraint
  violation, or the rejection of the malformed `NOT IN ()` clause that
  `GetRandomActiveReviewersFromTeamExcluding` would build from an empty
  exclusion list).
-/

namespace PRReview

deriving instance DecidableEq for Except

/-- Model of `model.TeamMember` from `internal/model`. -/
structure TeamMember where
  user_id : String
  username : String
  is_active : Bool
deriving Repr, DecidableEq

/-- Model of `model.Team` from `internal/model`. -/
structure Team where
  team_name : String
  members : List TeamMember
deriving Repr, DecidableEq

/-- Model of `model.User` from `internal/model`. -/
structure User where
  user_id : String
  username : String
  team_name : String
  is_active : Bool
deriving Repr, DecidableEq

/-- Model of `model.PullRequestStatus`: `OPEN` or `MERGED`. -/
inductive PullRequestStatus where
  | OPEN
  | MERGED
deriving Repr, DecidableEq

/-- Model of `model.PullRequest`.  Timestamps are abstracted to `Nat` ticks. -/
structure PullRequest where
  id : String
  name : String
  author_id : String
  status : PullRequestStatus
  assigned_reviewers : List String
  created_at : Option Nat
  merged_at : Option Nat
deriving Repr, DecidableEq

/-- Model of `model.PullRequestShort`. -/
structure PullRequestShort where
  id : String
  name : String
  author_id : String
  status : PullRequestStatus
deriving Repr, DecidableEq

/-- Model of `model.ReviewerStat`. -/
structure ReviewerStat where
  user_id : String
  assignments : Nat
deriving Repr, DecidableEq

/-- Go `error` values that occur in the program.
`noRows` is `sql.ErrNoRows`; `msg s` is `errors.New(s)`;
`sqlError s` is an error reported by the database driver;
`injected s` is an error produced by a query whose `NOT IN` fragment was
broken by an unescaped quote in an id (see
`GetRandomActiveReviewersFromTeamExcluding`). -/
inductive Err where
  | noRows
  | msg (s : String)
  | sqlError (s : String)
  | injected (s : String)
deriving Repr, DecidableEq

/-- Go `err.Error()`: the message carried by an error value. -/
def Err.errorString : Err → String
  | .noRows => "sql: no rows in result set"
  | .msg s => s
  | .sqlError s => s
  | .injected s => s

/-- Value of `service.ErrTeamExists`. -/
def ErrTeamExists : Err := .msg "team_exists"
/-- Value of `service.ErrPRExists`. -/
def ErrPRExists : Err := .msg "pr_exists"
/-- Value of `service.ErrPRMerged`. -/
def ErrPRMerged : Err := .msg "pr_merged"
/-- Value of `service.ErrNotAssigned`. -/
def ErrNotAssigned : Err := .msg "not_assigned"
/-- Value of `service.ErrNoCandidate`. -/
def ErrNoCandidate : Err := .msg "no_candidate"
/-- Value of `service.ErrNotFound`. -/
def ErrNotFound : Err := .msg "not_found"

/-- The error with which the database rejects the malformed query built by
`GetRandomActiveReviewersFromTeamExcluding` when the exclusion list is empty
(the string concatenation then degenerates to `user_id NOT IN ()`, which is
not valid SQL). -/
def emptyExclusionErr : Err := .sqlError "syntax_error_at_empty_in_list"

/-- A row of the `pull_requests` table (see `internal/db/migrate.go`):
`status` defaults to OPEN, `merged_at` is nullable. -/
structure PRRow where
  pull_request_id : String
  pull_request_name : String
  author_id : String
  status : PullRequestStatus
  created_at : Option Nat
  merged_at : Option Nat
deriving Repr, DecidableEq

/-- The database state: the four tables created by `Migrate`.
`reviewers` is the `pull_request_reviewers` link table, one
`(pull_request_id, user_id)` pair per row. -/
structure DB where
  teams : List String
  users : List User
  prs : List PRRow
  reviewers : List (String × String)
deriving Repr, DecidableEq

/-- Well-formedness of a database state: the PRIMARY KEY constraints of the
schema in `internal/db/migrate.go` (on `teams.name`, `users.user_id`,
`pull_requests.pull_request_id` and the pair key of
`pull_request_reviewers`), plus the REFERENCES constraints
`pull_request_reviewers.pull_request_id → pull_requests` and
`users.team_name → teams`. -/
def DB.WF (db : DB) : Prop :=
  db.teams.Nodup ∧
  (db.users.map (·.user_id)).Nodup ∧
  (db.prs.map (·.pull_request_id)).Nodup ∧
  db.reviewers.Nodup ∧
  (∀ l ∈ db.reviewers, ∃ r ∈ db.prs, r.pull_request_id = l.1) ∧
  (∀ u ∈ db.users, u.team_name ∈ db.teams)

instance (db : DB) : Decidable db.WF := by
  unfold DB.WF
  infer_instance

namespace PostgresRepo

/-- One iteration of the member-insert loop of `CreateTeamWithMembers`:
`INSERT INTO users ... ON CONFLICT (user_id) DO UPDATE` — update the row
with this id if present, append a fresh row otherwise. -/
def upsertUser (teamName : String) (users : List User) (m : TeamMember) : List User :=
  if users.any (·.user_id = m.user_id) then
    users.map (fun u =>
      if u.user_id = m.user_id then
        { user_id := m.user_id, username := m.username,
          team_name := teamName, is_active := m.is_active }
      else u)
  else
    users ++ [{ user_id := m.user_id, username := m.username,
                team_name := teamName, is_active := m.is_active }]

/-- Model of `PostgresRepo.CreateTeamWithMembers`: inside one transaction, check
existence, insert the team row, upsert every member; commit only on full
success (an error returns the untouched state — the deferred rollback). -/
def CreateTeamWithMembers (t : Team) (db : DB) : Except Err Unit × DB :=
  if t.team_name ∈ db.teams then
    (.error (.msg "team_exists"), db)
  else
    (.ok (), { db with
      teams := db.teams ++ [t.team_name],
      users := t.members.foldl (upsertUser t.team_name) db.users })

/-- The projection of a `users` row to a `model.TeamMember`, as scanned by
`GetTeam`. -/
def toTeamMember (u : User) : TeamMember :=
  { user_id := u.user_id, username := u.username, is_active := u.is_active }

/-- Model of `PostgresRepo.GetTeam`: a LEFT JOIN of `teams` and `users` on the team
name; a team row with zero users is still found; a missing team row yields
`sql.ErrNoRows`. -/
def GetTeam (name : String) (db : DB) : Except Err Team × DB :=
  if name ∈ db.teams then
    (.ok { team_name := name,
           members := (db.users.filter (·.team_name = name)).map toTeamMember }, db)
  else
    (.error .noRows, db)

/-- Model of `PostgresRepo.GetUserByID`: single-row SELECT; `sql.ErrNoRows` when the
user is absent. -/
def GetUserByID (id : String) (db : DB) : Except Err User × DB :=
  match db.users.find? (·.user_id = id) with
  | some u => (.ok u, db)
  | none => (.error .noRows, db)

/-- Model of `PostgresRepo.UpdateUserIsActive`: `UPDATE ... RETURNING`; scanning the
returned row yields `sql.ErrNoRows` when no row matched. -/
def UpdateUserIsActive (id : String) (active : Bool) (db : DB) : Except Err User × DB :=
  match db.users.find? (·.user_id = id) with
  | some u =>
      (.ok { u with is_active := active },
       { db with users := db.users.map (fun v =>
           if v.user_id = id then { v with is_active := active } else v) })
  | none => (.error .noRows, db)

/-- Model of `PostgresRepo.PRExists`: `SELECT EXISTS (...)`. -/
def PRExists (id : String) (db : DB) : Except Err Bool × DB :=
  (.ok (db.prs.any (·.pull_request_id = id)), db)

/-- Model of `PostgresRepo.CreatePullRequest`: inside one transaction, insert the PR
row (the SQL hardcodes status `'OPEN'` and leaves `merged_at` NULL) and one
link row per assigned reviewer.  A primary-key violation on either insert
aborts the transaction and leaves the state untouched.
`prRowOf` is the row built by the INSERT's VALUES: status hardcoded to
`'OPEN'`, `merged_at` left NULL. -/
def prRowOf (pr : PullRequest) : PRRow :=
  { pull_request_id := pr.id, pull_request_name := pr.name,
    author_id := pr.author_id, status := .OPEN,
    created_at := pr.created_at, merged_at := none }

def CreatePullRequest (pr : PullRequest) (db : DB) : Except Err Unit × DB :=
  let newLinks := pr.assigned_reviewers.map (fun rid => (pr.id, rid))
  if db.prs.any (·.pull_request_id = pr.id) then
    (.error (.sqlError "unique_violation"), db)
  else if newLinks.Nodup ∧ ∀ l ∈ newLinks, l ∉ db.reviewers then
    (.ok (), { db with prs := db.prs ++ [prRowOf pr], reviewers := db.reviewers ++ newLinks })
  else
    (.error (.sqlError "unique_violation"), db)

/-- The reviewer ids currently linked to PR `id`: the scan loop over
`SELECT user_id FROM pull_request_reviewers WHERE pull_request_id=$1`. -/
def reviewersOf (db : DB) (id : String) : List String :=
  (db.reviewers.filter (·.1 = id)).map (·.2)

/-- The `model.PullRequest` assembled by `GetPullRequestWithReviewers` from
a `pull_requests` row and the scanned reviewer list. -/
def prOfRow (row : PRRow) (revs : List String) : PullRequest :=
  { id := row.pull_request_id, name := row.pull_request_name,
    author_id := row.author_id, status := row.status,
    assigned_reviewers := revs, created_at := row.created_at, merged_at := row.merged_at }

/-- Model of `PostgresRepo.GetPullRequestWithReviewers`: fetch the PR row (absent →
`sql.ErrNoRows`), then collect its reviewer links. -/
def GetPullRequestWithReviewers (id : String) (db : DB) : Except Err PullRequest × DB :=
  match db.prs.find? (·.pull_request_id = id) with
  | none => (.error .noRows, db)
  | some row => (.ok (prOfRow row (reviewersOf db id)), db)

/-- Model of `PostgresRepo.SetPRMerged`: `UPDATE pull_requests SET status='MERGED',
merged_at=$2 WHERE pull_request_id=$1` (touching every matching row), then
re-fetch the PR with its reviewers. -/
def SetPRMerged (id : String) (mergedAt : Option Nat) (db : DB) : Except Err PullRequest × DB :=
  let db' : DB := { db with prs := db.prs.map (fun r =>
    if r.pull_request_id = id then { r with status := .MERGED, merged_at := mergedAt } else r) }
  GetPullRequestWithReviewers id db'

/-- Model of `PostgresRepo.SetPRReviewers`: inside one transaction, delete every link
of the PR and insert one link per new reviewer; a primary-key violation
aborts and leaves the state untouched. -/
def SetPRReviewers (id : String) (reviewers : List String) (db : DB) : Except Err Unit × DB :=
  let kept := db.reviewers.filter (·.1 ≠ id)
  let newLinks := reviewers.map (fun rid => (id, rid))
  if newLinks.Nodup ∧ ∀ l ∈ newLinks, l ∉ kept then
    (.ok (), { db with reviewers := kept ++ newLinks })
  else
    (.error (.sqlError "unique_violation"), db)

/-- The single-quote character that `fmt.Sprintf("'%s'", e)` wraps around
each excluded id. -/
def sqlQuote : Char := Char.ofNat 39

/-- Whether interpolating this id into the `NOT IN` fragment breaks out of
its SQL string literal: true exactly when the id itself contains a single
quote — the Go code escapes nothing, and ids arrive as arbitrary JSON
strings stored through parameterized inserts, so such ids reach this
query. -/
def breaksQuoting (s : String) : Bool := s.data.any (fun c => c = sqlQuote)

/-- The rows matched by the WHERE clause of the randomized candidate
query when every excluded id is quote-free (the fragment is then a
well-formed list of string literals): active users of the team whose id
is not excluded. -/
def eligibleIds (db : DB) (team : String) (exclude : List String) : List String :=
  (db.users.filter (fun u =>
    u.team_name = team ∧ u.is_active = true ∧ u.user_id ∉ exclude)).map (·.user_id)

/-- Model of `PostgresRepo.GetRandomActiveReviewersFromTeamExcluding`: the query
`SELECT user_id FROM users WHERE team_name=$1 AND is_active=true AND
user_id NOT IN (…) ORDER BY random() LIMIT $2`.  The `NOT IN (…)` fragment
is built by string concatenation of unescaped ids.  Three cases:
an empty exclusion list produces the malformed `NOT IN ()`, which the
database rejects; an id containing a single quote breaks out of its string
literal, so the resulting SQL is either invalid or a query with altered
semantics — which of the two, and what it returns, depends on the id text
in ways this model does not determine, so the outcome is supplied by the
`inj` parameter (an oracle like `shuffle`; a `.error s` outcome maps to
`Err.injected s`; the call is still a read and leaves the state unchanged,
because the driver sends one parameterized statement and the injected text
cannot smuggle in a second, mutating statement); with quote-free ids the
fragment is a well-formed literal list and the query returns up to `limit`
eligible ids in the `shuffle` order. -/
def GetRandomActiveReviewersFromTeamExcluding (shuffle : List String → List String)
    (inj : String → Nat → List String → DB → Except String (List String))
    (team : String) (limit : Nat) (exclude : List String) (db : DB) :
    Except Err (List String) × DB :=
  if exclude.isEmpty then
    (.error emptyExclusionErr, db)
  else if exclude.any breaksQuoting then
    match inj team limit exclude db with
    | .ok ids => (.ok ids, db)
    | .error s => (.error (.injected s), db)
  else
    (.ok ((shuffle (eligibleIds db team exclude)).take limit), db)

/-- The projection scanned by `GetPullRequestsByReviewer`. -/
def toShort (r : PRRow) : PullRequestShort :=
  { id := r.pull_request_id, name := r.pull_request_name,
    author_id := r.author_id, status := r.status }

/-- Model of `PostgresRepo.GetPullRequestsByReviewer`: the JOIN of `pull_requests`
with `pull_request_reviewers` filtered on the reviewer id — one output row
per matching (PR row, link row) pair. -/
def GetPullRequestsByReviewer (uid : String) (db : DB) :
    Except Err (List PullRequestShort) × DB :=
  (.ok (db.prs.flatMap (fun r =>
    (db.reviewers.filter (fun l => l.1 = r.pull_request_id ∧ l.2 = uid)).map
      (fun _ => toShort r))), db)

/-- Model of `PostgresRepo.GetReviewerAssignmentStats`: `SELECT user_id, COUNT(*)
FROM pull_request_reviewers GROUP BY user_id ORDER BY assignments DESC`.
The group keys are the distinct reviewer ids of the link table; descending
order on the count, ties in unspecified order. -/
def GetReviewerAssignmentStats (db : DB) : Except Err (List ReviewerStat) × DB :=
  let uids := (db.reviewers.map (·.2)).dedup
  let stats : List ReviewerStat :=
    uids.map (fun u => { user_id := u, assignments := (db.reviewers.filter (·.2 = u)).length })
  (.ok (stats.insertionSort (fun a b => b.assignments ≤ a.assignments)), db)

end PostgresRepo

/-- The `Repo` interface of `internal/service/service.go`, over an abstract
store state `σ`.  Every method returns its result together with the state
after the call. -/
structure Repo (σ : Type) where
  CreateTeamWithMembers : Team → σ → Except Err Unit × σ
  GetTeam : String → σ → Except Err Team × σ
  GetUserByID : String → σ → Except Err User × σ
  UpdateUserIsActive : String → Bool → σ → Except Err User × σ
  PRExists : String → σ → Except Err Bool × σ
  CreatePullRequest : PullRequest → σ → Except Err Unit × σ
  GetPullRequestWithReviewers : String → σ → Except Err PullRequest × σ
  SetPRMerged : String → Option Nat → σ → Except Err PullRequest × σ
  SetPRReviewers : String → List String → σ → Except Err Unit × σ
  GetRandomActiveReviewersFromTeamExcluding : String → Nat → List String → σ → Except Err (List String) × σ
  GetPullRequestsByReviewer : String → σ → Except Err (List PullRequestShort) × σ
  GetReviewerAssignmentStats : σ → Except Err (List ReviewerStat) × σ

/-- The concrete repository of `internal/repo/postgres.go`, with the
`ORDER BY random()` ordering supplied by `shuffle` and the outcome of a
quote-broken candidate query supplied by `inj`. -/
def postgresRepo (shuffle : List String → List String)
    (inj : String → Nat → List String → DB → Except String (List String)) : Repo DB where
  CreateTeamWithMembers := PostgresRepo.CreateTeamWithMembers
  GetTeam := PostgresRepo.GetTeam
  GetUserByID := PostgresRepo.GetUserByID
  UpdateUserIsActive := PostgresRepo.UpdateUserIsActive
  PRExists := PostgresRepo.PRExists
  CreatePullRequest := PostgresRepo.CreatePullRequest
  GetPullRequestWithReviewers := PostgresRepo.GetPullRequestWithReviewers
  SetPRMerged := PostgresRepo.SetPRMerged
  SetPRReviewers := PostgresRepo.SetPRReviewers
  GetRandomActiveReviewersFromTeamExcluding :=
    PostgresRepo.GetRandomActiveReviewersFromTeamExcluding shuffle inj
  GetPullRequestsByReviewer := PostgresRepo.GetPullRequestsByReviewer
  GetReviewerAssignmentStats := PostgresRepo.GetReviewerAssignmentStats

namespace Service

variable {σ : Type}

/-- Model of `Service.CreateTeam` (`internal/service/service.go`): create a team
with its members; the repo error with message `"team_exists"` is mapped to
`ErrTeamExists`, anything else propagates; on success the submitted team is
returned. -/
def CreateTeam (repo : Repo σ) (t : Team) (st : σ) : Except Err Team × σ :=
  match repo.CreateTeamWithMembers t st with
  | (.error e, st') =>
      if e.errorString = "team_exists" then (.error ErrTeamExists, st')
      else (.error e, st')
  | (.ok _, st') => (.ok t, st')

/-- Model of `Service.GetTeam`: `sql.ErrNoRows` becomes `ErrNotFound`. -/
def GetTeam (repo : Repo σ) (name : String) (st : σ) : Except Err Team × σ :=
  match repo.GetTeam name st with
  | (.error e, st') =>
      if e = .noRows then (.error ErrNotFound, st') else (.error e, st')
  | (.ok t, st') => (.ok t, st')

/-- Model of `Service.SetUserIsActive`: `sql.ErrNoRows` becomes `ErrNotFound`. -/
def SetUserIsActive (repo : Repo σ) (uid : String) (active : Bool) (st : σ) :
    Except Err User × σ :=
  match repo.UpdateUserIsActive uid active st with
  | (.error e, st') =>
      if e = .noRows then (.error ErrNotFound, st') else (.error e, st')
  | (.ok u, st') => (.ok u, st')

/-- Model of `Service.CreatePR`: reject a duplicate id with `ErrPRExists`; fetch the
author (`sql.ErrNoRows` → `ErrNotFound`); pick up to 2 random active
reviewers from the author's team excluding `[author]`; persist the PR with
status OPEN and the current time; return it. -/
def CreatePR (repo : Repo σ) (now : Nat) (id name author : String) (st : σ) :
    Except Err PullRequest × σ :=
  match repo.PRExists id st with
  | (.error e, st1) => (.error e, st1)
  | (.ok b, st1) =>
    if b then (.error ErrPRExists, st1)
    else
      match repo.GetUserByID author st1 with
      | (.error e, st2) =>
          if e = .noRows then (.error ErrNotFound, st2) else (.error e, st2)
      | (.ok user, st2) =>
        match repo.GetRandomActiveReviewersFromTeamExcluding user.team_name 2 [author] st2 with
        | (.error e, st3) => (.error e, st3)
        | (.ok revs, st3) =>
          let pr : PullRequest :=
            { id := id, name := name, author_id := author, status := .OPEN,
              assigned_reviewers := revs, created_at := some now, merged_at := none }
          match repo.CreatePullRequest pr st3 with
          | (.error e, st4) => (.error e, st4)
          | (.ok _, st4) => (.ok pr, st4)

/-- Model of `Service.MergePR`: fetch the PR (`sql.ErrNoRows` → `ErrNotFound`);
if it is already MERGED return it unchanged; otherwise set status MERGED
and `merged_at := now`. -/
def MergePR (repo : Repo σ) (now : Nat) (id : String) (st : σ) :
    Except Err PullRequest × σ :=
  match repo.GetPullRequestWithReviewers id st with
  | (.error e, st1) =>
      if e = .noRows then (.error ErrNotFound, st1) else (.error e, st1)
  | (.ok pr, st1) =>
    if pr.status = .MERGED then (.ok pr, st1)
    else repo.SetPRMerged id (some now) st1

/-- Model of `Service.ReassignReviewer`: fetch the PR; forbid when MERGED; require
`old` to be currently assigned; fetch `old`'s user record (any failure here
is returned as `ErrNotFound`, exactly as the Go code does); pick 1 random
active candidate from `old`'s team excluding `[old, author] ++ reviewers`;
replace `old` in the reviewer list and persist the full new set. -/
def ReassignReviewer (repo : Repo σ) (prID old : String) (st : σ) :
    Except Err (PullRequest × String) × σ :=
  match repo.GetPullRequestWithReviewers prID st with
  | (.error e, st1) =>
      if e = .noRows then (.error ErrNotFound, st1) else (.error e, st1)
  | (.ok pr, st1) =>
    if pr.status = .MERGED then (.error ErrPRMerged, st1)
    else if !(pr.assigned_reviewers.any (· = old)) then (.error ErrNotAssigned, st1)
    else
      match repo.GetUserByID old st1 with
      | (.error _, st2) => (.error ErrNotFound, st2)
      | (.ok oldUser, st2) =>
        match repo.GetRandomActiveReviewersFromTeamExcluding oldUser.team_name 1
            ([old, pr.author_id] ++ pr.assigned_reviewers) st2 with
        | (.error e, st3) => (.error e, st3)
        | (.ok candidates, st3) =>
          match candidates with
          | [] => (.error ErrNoCandidate, st3)
          | newReviewer :: _ =>
            let newRevs := pr.assigned_reviewers.map
              (fun r => if r = old then newReviewer else r)
            match repo.SetPRReviewers pr.id newRevs st3 with
            | (.error e, st4) => (.error e, st4)
            | (.ok _, st4) =>
                (.ok ({ pr with assigned_reviewers := newRevs }, newReviewer), st4)

/-- Model of `Service.GetReviews`: delegates to the repository. -/
def GetReviews (repo : Repo σ) (uid : String) (st : σ) :
    Except Err (List PullRequestShort) × σ :=
  repo.GetPullRequestsByReviewer uid st

/-- Model of `Service.GetReviewerStats`: delegates to the repository. -/
def GetReviewerStats (repo : Repo σ) (st : σ) :
    Except Err (List ReviewerStat) × σ :=
  repo.GetReviewerAssignmentStats st

end Service

/-- One public operation of the service layer, with its request payload. -/
inductive Op where
  | createTeam (t : Team)
  | getTeam (name : String)
  | setUserIsActive (uid : String) (active : Bool)
  | createPR (id name author : String)
  | mergePR (id : String)
  | reassignReviewer (prID old : String)
  | getReviews (uid : String)
  | getReviewerStats
deriving Repr, DecidableEq

/-- Run one public operation against the concrete Postgres repository,
keeping only the error outcome and the resulting state. -/
def runOp (shuffle : List String → List String)
    (inj : String → Nat → List String → DB → Except String (List String))
    (now : Nat) (op : Op) (db : DB) :
    Except Err Unit × DB :=
  match op with
  | .createTeam t =>
      ((Service.CreateTeam (postgresRepo shuffle inj) t db).1.map (fun _ => ()),
       (Service.CreateTeam (postgresRepo shuffle inj) t db).2)
  | .getTeam name =>
      ((Service.GetTeam (postgresRepo shuffle inj) name db).1.map (fun _ => ()),
       (Service.GetTeam (postgresRepo shuffle inj) name db).2)
  | .setUserIsActive uid active =>
      ((Service.SetUserIsActive (postgresRepo shuffle inj) uid active db).1.map (fun _ => ()),
       (Service.SetUserIsActive (postgresRepo shuffle inj) uid active db).2)
  | .createPR id name author =>
      ((Service.CreatePR (postgresRepo shuffle inj) now id name author db).1.map (fun _ => ()),
       (Service.CreatePR (postgresRepo shuffle inj) now id name author db).2)
  | .mergePR id =>
      ((Service.MergePR (postgresRepo shuffle inj) now id db).1.map (fun _ => ()),
       (Service.MergePR (postgresRepo shuffle inj) now id db).2)
  | .reassignReviewer prID old =>
      ((Service.ReassignReviewer (postgresRepo shuffle inj) prID old db).1.map (fun _ => ()),
       (Service.ReassignReviewer (postgresRepo shuffle inj) prID old db).2)
  | .getReviews uid =>
      ((Service.GetReviews (postgresRepo shuffle inj) uid db).1.map (fun _ => ()),
       (Service.GetReviews (postgresRepo shuffle inj) uid db).2)
  | .getReviewerStats =>
      ((Service.GetReviewerStats (postgresRepo shuffle inj) db).1.map (fun _ => ()),
       (Service.GetReviewerStats (postgresRepo shuffle inj) db).2)


/-- A repository stub over a trivial store: the PR fetch succeeds with one
OPEN pull request reviewed by "u2", while the user lookup fails with a
driver-level error distinct from `sql.ErrNoRows`.  The remaining methods
are never reached in the scenario. -/
def faultyRepo : Repo Unit where
  CreateTeamWithMembers := fun _ s => (.error (.sqlError "unused"), s)
  GetTeam := fun _ s => (.error (.sqlError "unused"), s)
  GetUserByID := fun _ s => (.error (.sqlError "connection_reset"), s)
  UpdateUserIsActive := fun _ _ s => (.error (.sqlError "unused"), s)
  PRExists := fun _ s => (.ok false, s)
  CreatePullRequest := fun _ s => (.ok (), s)
  GetPullRequestWithReviewers := fun _ s =>
    (.ok { id := "pr1", name := "n", author_id := "u1", status := .OPEN,
           assigned_reviewers := ["u2"], created_at := some 0, merged_at := none }, s)
  SetPRMerged := fun _ _ s => (.error (.sqlError "unused"), s)
  SetPRReviewers := fun _ _ s => (.ok (), s)
  GetRandomActiveReviewersFromTeamExcluding := fun _ _ _ s => (.ok [], s)
  GetPullRequestsByReviewer := fun _ s => (.ok [], s)
  GetReviewerAssignmentStats := fun s => (.ok [], s)

instance : IsTotal ReviewerStat (fun a b => b.assignments ≤ a.assignments) :=
  ⟨fun a b => le_total b.assignments a.assignments⟩

instance : IsTrans ReviewerStat (fun a b => b.assignments ≤ a.assignments) :=
  ⟨fun _ _ _ hab hbc => le_trans hbc hab⟩

/-! ### Concrete states for counterexamples and witnesses -/

/-- The identity permutation: one possible outcome of `ORDER BY random()`. -/
def idShuffle : List String → List String := fun l => l

/-- A well-formed state: one team of four active users, no PRs. -/
def exampleDB : DB where
  teams := ["backend"]
  users := [⟨"u1", "a", "backend", true⟩, ⟨"u2", "b", "backend", true⟩,
            ⟨"u3", "c", "backend", true⟩, ⟨"u4", "d", "backend", true⟩]
  prs := []
  reviewers := []

/-- State `exampleDB` after `CreatePR("pr1","feat","u1")` under `idShuffle`:
"u2" and "u3" got assigned. -/
def exampleDB1 : DB where
  teams := ["backend"]
  users := [⟨"u1", "a", "backend", true⟩, ⟨"u2", "b", "backend", true⟩,
            ⟨"u3", "c", "backend", true⟩, ⟨"u4", "d", "backend", true⟩]
  prs := [⟨"pr1", "feat", "u1", .OPEN, some 5, none⟩]
  reviewers := [("pr1", "u2"), ("pr1", "u3")]

/-- State `exampleDB1` after `ReassignReviewer("pr1","u2")` under `idShuffle`:
"u2" was replaced by "u4". -/
def exampleDB2 : DB where
  teams := ["backend"]
  users := [⟨"u1", "a", "backend", true⟩, ⟨"u2", "b", "backend", true⟩,
            ⟨"u3", "c", "backend", true⟩, ⟨"u4", "d", "backend", true⟩]
  prs := [⟨"pr1", "feat", "u1", .OPEN, some 5, none⟩]
  reviewers := [("pr1", "u4"), ("pr1", "u3")]

/-- A state holding one already-merged PR reviewed by "u2". -/
def mergedDB : DB where
  teams := ["backend"]
  users := [⟨"u1", "a", "backend", true⟩, ⟨"u2", "b", "backend", true⟩,
            ⟨"u3", "c", "backend", true⟩, ⟨"u4", "d", "backend", true⟩]
  prs := [⟨"prM", "old feature", "u1", .MERGED, some 1, some 2⟩]
  reviewers := [("prM", "u2")]

/-- The stored row of the merged PR in `mergedDB`. -/
def mergedRow : PRRow := ⟨"prM", "old feature", "u1", .MERGED, some 1, some 2⟩

/-- A fresh team for the round-trip witness. -/
def frontTeam : Team := ⟨"front", [⟨"u9", "z", true⟩]⟩

/-- State `exampleDB` after `CreateTeam(frontTeam)`. -/
def exampleDBfront : DB where
  teams := ["backend", "front"]
  users := [⟨"u1", "a", "backend", true⟩, ⟨"u2", "b", "backend", true⟩,
            ⟨"u3", "c", "backend", true⟩, ⟨"u4", "d", "backend", true⟩,
            ⟨"u9", "z", "front", true⟩]
  prs := []
  reviewers := []

/-- The stats reported on `exampleDB2`. -/
def statsW : List ReviewerStat := [⟨"u4", 1⟩, ⟨"u3", 1⟩]

/-- An injection oracle for runs whose ids are all quote-free: the
quote-broken branch is never reached, so the choice is irrelevant. -/
def noInj : String → Nat → List String → DB → Except String (List String) :=
  fun _ _ _ _ => .error "unreachable"

/-- The classic injection payload, built character-wise so that the source
contains no quote characters: the id text is
x&) OR (&1&=&1 with every & standing for a single quote.  Interpolated by
fmt.Sprintf, the exclusion fragment becomes NOT IN (&x&) OR (&1&=&1&),
a well-formed WHERE clause — and since AND binds tighter than OR, it is
true of every row of users. -/
def injectedId : String :=
  "x" ++ PostgresRepo.sqlQuote.toString ++ ") OR (" ++ PostgresRepo.sqlQuote.toString ++ "1" ++
    PostgresRepo.sqlQuote.toString ++ "=" ++ PostgresRepo.sqlQuote.toString ++ "1"

/-- The database's behavior on an exclusion list broken by the
`injectedId` payload: the OR-true clause matches every row of `users` —
team, activity and exclusion ignored — so the query returns up to `limit`
of ALL user ids; table order stands for one possible `ORDER BY random()`
outcome. -/
def orTrueInj : String → Nat → List String → DB → Except String (List String) :=
  fun _ limit _ db => .ok ((db.users.map (·.user_id)).take limit)

/-- One possible random outcome of the same OR-true clause during
reassignment: every user is eligible again — including the departing
reviewer — and the single row drawn is "u2" itself. -/
def pickOldInj : String → Nat → List String → DB → Except String (List String) :=
  fun _ limit _ _ => .ok (["u2"].take limit)

/-- A state whose only team contains a user whose id is the injection
payload (ids are stored through parameterized inserts, so such ids reach
the database unharmed) plus an ordinary user. -/
def cexInjDB : DB where
  teams := ["backend"]
  users := [⟨injectedId, "eve", "backend", true⟩, ⟨"u2", "b", "backend", true⟩]
  prs := []
  reviewers := []

/-- A state with an OPEN PR whose stored reviewer links end in the
injection-payload user (ids are stored through parameterized inserts, so
such an id reaches the reviewer table unharmed — e.g. by the very
CreatePR of `cexInjDB`): the reassignment's exclusion list then ends in
the payload, and the interpolated fragment closes into the VALID clause
`NOT IN (...) OR (1=1)`, true of every row. -/
def cexInjDB2 : DB where
  teams := ["backend"]
  users := [⟨"a", "auth", "backend", true⟩, ⟨"u2", "b", "backend", true⟩,
            ⟨injectedId, "eve", "backend", true⟩]
  prs := [⟨"pr1", "n", "a", .OPEN, some 0, none⟩]
  reviewers := [("pr1", "u2"), ("pr1", injectedId)]

end PRReview

namespace PRReview

/-- Lemma: `find?` over an append succeeds on the left part first. -/
theorem find?_append_some {α : Type} {p : α → Bool} {l₁ l₂ : List α} {a : α}
    (h : l₁.find? p = some a) : (l₁ ++ l₂).find? p = some a := by
  rw [List.find?_append, h]
  rfl

/-- Taking elements preserves membership. -/
theorem mem_of_mem_take {α : Type} {a : α} {n : Nat} {l : List α}
    (h : a ∈ l.take n) : a ∈ l :=
  (List.take_sublist n l).subset h

/-- Lemma: `find?` on a row id commutes with an id-preserving row update. -/
theorem find?_map_pr (f : PRRow → PRRow)
    (hf : ∀ r, (f r).pull_request_id = r.pull_request_id) (p : String) (prs : List PRRow) :
    (prs.map f).find? (·.pull_request_id = p) =
      (prs.find? (·.pull_request_id = p)).map f := by
  induction prs with
  | nil => rfl
  | cons a l ih =>
      simp only [List.map_cons, List.find?_cons, hf]
      by_cases h : a.pull_request_id = p
      · simp [h]
      · simp [h, ih]

/-- Link rows freshly minted for one PR id do not survive a filter on a
different PR id. -/
theorem filter_links_map_other {id p : String} (rs : List String) (hne : p ≠ id) :
    (rs.map (fun rid => (id, rid))).filter (fun l => decide (l.1 = p)) = [] := by
  rw [List.filter_eq_nil_iff]
  intro l hl
  rcases List.mem_map.mp hl with ⟨rid, _, rfl⟩
  simp [Ne.symm hne]

/-- Deleting the links of one PR does not change the links of another. -/
theorem filter_after_delete_other {q p : String} (l : List (String × String)) (hne : p ≠ q) :
    (l.filter (fun x => decide (x.1 ≠ q))).filter (fun x => decide (x.1 = p)) =
      l.filter (fun x => decide (x.1 = p)) := by
  rw [List.filter_filter]
  apply List.filter_congr
  intro x _
  by_cases hx : x.1 = p
  · simp [hx, hne]
  · simp [hx]

/-- A pointwise-vacuous conditional update maps a list to itself. -/
theorem map_update_user_eq_self (mid : String) (nu : User) (l : List User)
    (h : ∀ u ∈ l, u.user_id ≠ mid) :
    l.map (fun u => if u.user_id = mid then nu else u) = l := by
  have hc : ∀ u ∈ l, (fun u => if u.user_id = mid then nu else u) u = id u := by
    intro u hu
    simp [h u hu]
  rw [List.map_congr_left hc, List.map_id]

/-- A failing `SetPRReviewers` reports the key violation and leaves the
state untouched (transaction rollback). -/
theorem setPRReviewers_error {id : String} {rs : List String} {db : DB} {e : Err} {db' : DB}
    (h : PostgresRepo.SetPRReviewers id rs db = (.error e, db')) :
    e = .sqlError "unique_violation" ∧ db' = db := by
  by_cases hc : (rs.map (fun rid => (id, rid))).Nodup ∧
      ∀ l ∈ rs.map (fun rid => (id, rid)), l ∉ db.reviewers.filter (·.1 ≠ id)
  · rw [show PostgresRepo.SetPRReviewers id rs db = _ from if_pos hc] at h
    exact absurd h (by simp)
  · rw [show PostgresRepo.SetPRReviewers id rs db = _ from if_neg hc] at h
    obtain ⟨h1, h2⟩ := Prod.mk.injEq .. ▸ h
    exact ⟨(Except.error.injEq .. ▸ h1).symm, h2.symm⟩

/-- A successful `SetPRReviewers` commits exactly the delete-and-reinsert. -/
theorem setPRReviewers_ok {id : String} {rs : List String} {db : DB} {db' : DB}
    (h : PostgresRepo.SetPRReviewers id rs db = (.ok (), db')) :
    db' = { db with reviewers :=
      db.reviewers.filter (·.1 ≠ id) ++ rs.map (fun r => (id, r)) } := by
  by_cases hc : (rs.map (fun rid => (id, rid))).Nodup ∧
      ∀ l ∈ rs.map (fun rid => (id, rid)), l ∉ db.reviewers.filter (·.1 ≠ id)
  · rw [show PostgresRepo.SetPRReviewers id rs db = _ from if_pos hc] at h
    exact ((Prod.mk.injEq .. ▸ h).2).symm
  · rw [show PostgresRepo.SetPRReviewers id rs db = _ from if_neg hc] at h
    exact absurd h (by simp)

/-- A failing `CreatePullRequest` reports the key violation and leaves the
state untouched (transaction rollback). -/
theorem createPullRequest_error {pr : PullRequest} {db : DB} {e : Err} {db' : DB}
    (h : PostgresRepo.CreatePullRequest pr db = (.error e, db')) :
    e = .sqlError "unique_violation" ∧ db' = db := by
  by_cases hb : db.prs.any (·.pull_request_id = pr.id) = true
  · rw [show PostgresRepo.CreatePullRequest pr db = _ from if_pos hb] at h
    obtain ⟨h1, h2⟩ := Prod.mk.injEq .. ▸ h
    exact ⟨(Except.error.injEq .. ▸ h1).symm, h2.symm⟩
  · by_cases hc : (pr.assigned_reviewers.map (fun rid => (pr.id, rid))).Nodup ∧
        ∀ l ∈ pr.assigned_reviewers.map (fun rid => (pr.id, rid)), l ∉ db.reviewers
    · rw [show PostgresRepo.CreatePullRequest pr db = _ from (if_neg hb).trans (if_pos hc)] at h
      exact absurd h (by simp)
    · rw [show PostgresRepo.CreatePullRequest pr db = _ from (if_neg hb).trans (if_neg hc)] at h
      obtain ⟨h1, h2⟩ := Prod.mk.injEq .. ▸ h
      exact ⟨(Except.error.injEq .. ▸ h1).symm, h2.symm⟩

/-- A successful `CreatePullRequest` commits exactly the PR row and its
link rows, and can only happen when the PR id was free. -/
theorem createPullRequest_ok {pr : PullRequest} {db : DB} {db' : DB}
    (h : PostgresRepo.CreatePullRequest pr db = (.ok (), db')) :
    db' = { db with
            prs := db.prs ++ [PostgresRepo.prRowOf pr]
            reviewers := db.reviewers ++ pr.assigned_reviewers.map (fun rid => (pr.id, rid)) } ∧
    db.prs.any (·.pull_request_id = pr.id) = false := by
  by_cases hb : db.prs.any (·.pull_request_id = pr.id) = true
  · rw [show PostgresRepo.CreatePullRequest pr db = _ from if_pos hb] at h
    exact absurd h (by simp)
  · by_cases hc : (pr.assigned_reviewers.map (fun rid => (pr.id, rid))).Nodup ∧
        ∀ l ∈ pr.assigned_reviewers.map (fun rid => (pr.id, rid)), l ∉ db.reviewers
    · rw [show PostgresRepo.CreatePullRequest pr db = _ from (if_neg hb).trans (if_pos hc)] at h
      exact ⟨((Prod.mk.injEq .. ▸ h).2).symm, Bool.not_eq_true _ ▸ hb⟩
    · rw [show PostgresRepo.CreatePullRequest pr db = _ from (if_neg hb).trans (if_neg hc)] at h
      exact absurd h (by simp)

/-- When the checked conditions hold, `CreatePullRequest` succeeds. -/
theorem createPullRequest_succeeds {pr : PullRequest} {db : DB}
    (hb : db.prs.any (·.pull_request_id = pr.id) = false)
    (hc : (pr.assigned_reviewers.map (fun rid => (pr.id, rid))).Nodup ∧
      ∀ l ∈ pr.assigned_reviewers.map (fun rid => (pr.id, rid)), l ∉ db.reviewers) :
    PostgresRepo.CreatePullRequest pr db =
      (.ok (), { db with
        prs := db.prs ++ [PostgresRepo.prRowOf pr]
        reviewers := db.reviewers ++ pr.assigned_reviewers.map (fun rid => (pr.id, rid)) }) :=
  ((if_neg (by simp [hb])).trans (if_pos hc))

/-- When the PR row is present, `PostgresRepo.SetPRMerged` updates it and
returns the merged PR together with its (unchanged) reviewer links. -/
theorem setPRMerged_eq (id : String) (t : Option Nat) (db : DB) (row : PRRow)
    (h : db.prs.find? (·.pull_request_id = id) = some row) :
    PostgresRepo.SetPRMerged id t db =
      (.ok (PostgresRepo.prOfRow { row with status := .MERGED, merged_at := t }
              (PostgresRepo.reviewersOf db id)),
       { db with prs := db.prs.map (fun r =>
           if r.pull_request_id = id then { r with status := .MERGED, merged_at := t } else r) }) := by
  unfold PostgresRepo.SetPRMerged PostgresRepo.GetPullRequestWithReviewers
  have hupd : (db.prs.map (fun r =>
      if r.pull_request_id = id then { r with status := PullRequestStatus.MERGED, merged_at := t } else r)).find?
        (·.pull_request_id = id) =
      some { row with status := .MERGED, merged_at := t } := by
    rw [find?_map_pr]
    · rw [h]
      have hid : row.pull_request_id = id := by
        have := List.find?_some h
        simpa using this
      simp [hid]
    · intro r
      by_cases hr : r.pull_request_id = id <;> simp [hr]
  simp only [hupd]
  rfl

end PRReview

namespace PRReview

/-- Characterization of `Service.CreatePR` over the concrete Postgres
repository: the read steps leave the state unchanged, so the whole
operation is the decision chain below. -/
theorem createPR_run (shuffle : List String → List String)
    (inj : String → Nat → List String → DB → Except String (List String))
    (now : Nat) (id name author : String) (db : DB) :
    Service.CreatePR (postgresRepo shuffle inj) now id name author db =
      if db.prs.any (·.pull_request_id = id) then (.error ErrPRExists, db)
      else
        match db.users.find? (·.user_id = author) with
        | none => (.error ErrNotFound, db)
        | some user =>
          if PostgresRepo.breaksQuoting author = true then
            match inj user.team_name 2 [author] db with
            | .error s => (.error (.injected s), db)
            | .ok revs =>
              match PostgresRepo.CreatePullRequest
                  { id := id, name := name, author_id := author, status := .OPEN,
                    assigned_reviewers := revs,
                    created_at := some now, merged_at := none } db with
              | (.error e, db') => (.error e, db')
              | (.ok _, db') =>
                (.ok { id := id, name := name, author_id := author, status := .OPEN,
                       assigned_reviewers := revs,
                       created_at := some now, merged_at := none }, db')
          else
            match PostgresRepo.CreatePullRequest
                { id := id, name := name, author_id := author, status := .OPEN,
                  assigned_reviewers :=
                    (shuffle (PostgresRepo.eligibleIds db user.team_name [author])).take 2,
                  created_at := some now, merged_at := none } db with
            | (.error e, db') => (.error e, db')
            | (.ok _, db') =>
              (.ok { id := id, name := name, author_id := author, status := .OPEN,
                     assigned_reviewers :=
                       (shuffle (PostgresRepo.eligibleIds db user.team_name [author])).take 2,
                     created_at := some now, merged_at := none }, db') := by
  simp only [Service.CreatePR, postgresRepo, PostgresRepo.PRExists]
  split
  · rfl
  · simp only [PostgresRepo.GetUserByID]
    rcases h : db.users.find? (fun u => decide (u.user_id = author)) with _ | u
    · simp [h, ErrNotFound]
    · simp only [h, PostgresRepo.GetRandomActiveReviewersFromTeamExcluding,
        List.isEmpty_cons, Bool.false_eq_true, if_false,
        List.any_cons, List.any_nil, Bool.or_false]
      by_cases hq : PostgresRepo.breaksQuoting author = true
      · rw [if_pos hq, if_pos hq]
        rcases hi : inj u.team_name 2 [author] db with s | ids
        · simp [hi]
        · simp only [hi]
          split <;> rename_i heq <;> first
            | rfl
            | simp only [heq]
      · simp only [if_neg hq]
        split <;> rename_i heq <;> first
          | rfl
          | simp only [heq]

/-- Characterization of `Service.MergePR` over the concrete Postgres
repository. -/
theorem mergePR_run (shuffle : List String → List String)
    (inj : String → Nat → List String → DB → Except String (List String)) (now : Nat)
    (id : String) (db : DB) :
    Service.MergePR (postgresRepo shuffle inj) now id db =
      match db.prs.find? (·.pull_request_id = id) with
      | none => (.error ErrNotFound, db)
      | some row =>
        if row.status = .MERGED then
          (.ok (PostgresRepo.prOfRow row (PostgresRepo.reviewersOf db id)), db)
        else PostgresRepo.SetPRMerged id (some now) db := by
  simp only [Service.MergePR, postgresRepo, PostgresRepo.GetPullRequestWithReviewers]
  rcases h : db.prs.find? (fun r => decide (r.pull_request_id = id)) with _ | row
  · simp [h, ErrNotFound]
  · simp [h, PostgresRepo.prOfRow]

/-- Characterization of `Service.ReassignReviewer` over the concrete
Postgres repository. -/
theorem reassign_run (shuffle : List String → List String)
    (inj : String → Nat → List String → DB → Except String (List String))
    (prID old : String) (db : DB) :
    Service.ReassignReviewer (postgresRepo shuffle inj) prID old db =
      match db.prs.find? (·.pull_request_id = prID) with
      | none => (.error ErrNotFound, db)
      | some row =>
        if row.status = .MERGED then (.error ErrPRMerged, db)
        else if !((PostgresRepo.reviewersOf db prID).any (· = old)) then
          (.error ErrNotAssigned, db)
        else
          match db.users.find? (·.user_id = old) with
          | none => (.error ErrNotFound, db)
          | some oldUser =>
            if ([old, row.author_id] ++ PostgresRepo.reviewersOf db prID).any
                PostgresRepo.breaksQuoting then
              match inj oldUser.team_name 1
                  ([old, row.author_id] ++ PostgresRepo.reviewersOf db prID) db with
              | .error s => (.error (.injected s), db)
              | .ok candidates =>
                match candidates with
                | [] => (.error ErrNoCandidate, db)
                | newReviewer :: _ =>
                  match PostgresRepo.SetPRReviewers row.pull_request_id
                      ((PostgresRepo.reviewersOf db prID).map
                        (fun r => if r = old then newReviewer else r)) db with
                  | (.error e, db') => (.error e, db')
                  | (.ok _, db') =>
                    (.ok (PostgresRepo.prOfRow row
                            ((PostgresRepo.reviewersOf db prID).map
                              (fun r => if r = old then newReviewer else r)),
                          newReviewer), db')
            else
              match (shuffle (PostgresRepo.eligibleIds db oldUser.team_name
                  ([old, row.author_id] ++ PostgresRepo.reviewersOf db prID))).take 1 with
              | [] => (.error ErrNoCandidate, db)
              | newReviewer :: _ =>
                match PostgresRepo.SetPRReviewers row.pull_request_id
                    ((PostgresRepo.reviewersOf db prID).map
                      (fun r => if r = old then newReviewer else r)) db with
                | (.error e, db') => (.error e, db')
                | (.ok _, db') =>
                  (.ok (PostgresRepo.prOfRow row
                          ((PostgresRepo.reviewersOf db prID).map
                            (fun r => if r = old then newReviewer else r)),
                        newReviewer), db') := by
  simp only [Service.ReassignReviewer, postgresRepo, PostgresRepo.GetPullRequestWithReviewers]
  rcases h : db.prs.find? (fun r => decide (r.pull_request_id = prID)) with _ | row
  · simp [h, ErrNotFound]
  · simp only [h, PostgresRepo.prOfRow]
    split
    · rfl
    · split
      · rfl
      · simp only [PostgresRepo.GetUserByID]
        rcases h2 : db.users.find? (fun u => decide (u.user_id = old)) with _ | oldUser
        · simp [h2, ErrNotFound]
        · simp only [h2, PostgresRepo.GetRandomActiveReviewersFromTeamExcluding,
            List.cons_append, List.nil_append, List.isEmpty_cons,
            Bool.false_eq_true, if_false]
          by_cases hq : (old :: row.author_id :: PostgresRepo.reviewersOf db prID).any
              PostgresRepo.breaksQuoting = true
          · simp only [if_pos hq]
            rcases hi : inj oldUser.team_name 1
                (old :: row.author_id :: PostgresRepo.reviewersOf db prID) db with s | candidates
            · simp [hi]
            · simp only [hi]
              split <;> rename_i heq <;> first
                | rfl
                | (split <;> rename_i heq2 <;> first
                    | rfl
                    | simp only [heq2])
          · simp only [if_neg hq]
            split <;> rename_i heq <;> first
              | rfl
              | (split <;> rename_i heq2 <;> first
                  | rfl
                  | simp only [heq2])

end PRReview

namespace PRReview

theorem prod_eq_snd {α β : Type} {a c : α} {b d : β} (h : (a, b) = (c, d)) : b = d :=
  congrArg Prod.snd h

theorem except_map_error {ε α β : Type} {f : α → β} {r : Except ε α} {e : ε}
    (h : r.map f = .error e) : r = .error e := by
  cases r <;> simp_all [Except.map]

/-! ### Claim C10 -/

/-- C10: every invocation of the randomized candidate query reachable
through the public operations passes a non-empty exclusion list —
`CreatePR` always passes `[author]` and `ReassignReviewer` always passes
`[old, author] ++ reviewers` — so the failure branch of the malformed
empty `NOT IN ()` clause is unreachable from the service layer: neither
operation can ever surface `emptyExclusionErr`. -/
theorem exclusion_clause_never_empty (shuffle : List String → List String)
    (inj : String → Nat → List String → DB → Except String (List String))
    (now : Nat) (id name author prID old : String) (db : DB) :
    (Service.CreatePR (postgresRepo shuffle inj) now id name author db).1 ≠
      .error emptyExclusionErr ∧
    (Service.ReassignReviewer (postgresRepo shuffle inj) prID old db).1 ≠
      .error emptyExclusionErr := by
  constructor
  · rw [createPR_run]
    split
    · simp [ErrPRExists, emptyExclusionErr]
    · split
      · simp [ErrNotFound, emptyExclusionErr]
      · split
        · split <;> rename_i heq
          · simp [emptyExclusionErr]
          · split <;> rename_i heq2
            · rcases createPullRequest_error heq2 with ⟨rfl, -⟩
              simp [emptyExclusionErr]
            · simp
        · split <;> rename_i heq
          · rcases createPullRequest_error heq with ⟨rfl, -⟩
            simp [emptyExclusionErr]
          · simp
  · rw [reassign_run]
    split
    · simp [ErrNotFound, emptyExclusionErr]
    · split
      · simp [ErrPRMerged, emptyExclusionErr]
      · split
        · simp [ErrNotAssigned, emptyExclusionErr]
        · split
          · simp [ErrNotFound, emptyExclusionErr]
          · split
            · split <;> rename_i heq
              · simp [emptyExclusionErr]
              · split
                · simp [ErrNoCandidate, emptyExclusionErr]
                · split <;> rename_i heq2
                  · rcases setPRReviewers_error heq2 with ⟨rfl, -⟩
                    simp [emptyExclusionErr]
                  · simp
            · split
              · simp [ErrNoCandidate, emptyExclusionErr]
              · split <;> rename_i heq
                · rcases setPRReviewers_error heq with ⟨rfl, -⟩
                  simp [emptyExclusionErr]
                · simp

/-! ### Claim C4 -/

/-- C4 counterexample: when the old-reviewer lookup fails with a
persistence error that is NOT the missing-record signal `sql.ErrNoRows`,
`ReassignReviewer` still answers `ErrNotFound` instead of propagating the
error unchanged (service.go lines 202–205 map every lookup error to
`ErrNotFound`), so the claim's propagation half is false of the code. -/
theorem reassign_lookup_error_cex :
    faultyRepo.GetUserByID "u2" () = (.error (.sqlError "connection_reset"), ()) ∧
    Err.sqlError "connection_reset" ≠ Err.noRows ∧
    Service.ReassignReviewer faultyRepo "pr1" "u2" () = (.error ErrNotFound, ()) ∧
    Err.msg "not_found" ≠ Err.sqlError "connection_reset" := by
  refine ⟨rfl, by decide, ?_, by decide⟩
  rfl

/-- C4 (amended): `ReassignReviewer` returns `NotFound` whenever the
old-reviewer lookup fails, for ANY error — the missing-record case and
every other persistence failure at that step are alike classified as
`NotFound` rather than being propagated unchanged. -/
theorem reassign_lookup_failure_notFound {σ : Type} (repo : Repo σ) (st : σ)
    (prID old : String) (pr : PullRequest) (st1 : σ) (e : Err) (st2 : σ)
    (h1 : repo.GetPullRequestWithReviewers prID st = (.ok pr, st1))
    (h2 : pr.status ≠ .MERGED)
    (h3 : pr.assigned_reviewers.any (· = old) = true)
    (h4 : repo.GetUserByID old st1 = (.error e, st2)) :
    Service.ReassignReviewer repo prID old st = (.error ErrNotFound, st2) := by
  unfold Service.ReassignReviewer
  rw [h1]
  simp only [h2, if_false, h3, Bool.not_true, Bool.false_eq_true, if_false, h4]

/-- Witness for the amended C4, at the concrete faulty repository. -/
theorem reassign_lookup_failure_notFound_witness :
    Service.ReassignReviewer faultyRepo "pr1" "u2" () = (.error ErrNotFound, ()) :=
  reassign_lookup_failure_notFound faultyRepo () "pr1" "u2"
    { id := "pr1", name := "n", author_id := "u1", status := .OPEN,
      assigned_reviewers := ["u2"], created_at := some 0, merged_at := none }
    () (.sqlError "connection_reset") () rfl (by decide) (by decide) rfl

/-! ### Claim C9 -/

/-- C9: `GetUserReviews` never fails — for any `userId`, known or not, it
returns `ok` with the state unchanged; the result is empty whenever the
user has no current link row, and in general consists exactly of the
abbreviated PRs on which the user is currently an assigned reviewer. -/
theorem getReviews_total (shuffle : List String → List String)
    (inj : String → Nat → List String → DB → Except String (List String)) (uid : String) (db : DB) :
    ∃ res, Service.GetReviews (postgresRepo shuffle inj) uid db = (.ok res, db) ∧
      ((∀ l ∈ db.reviewers, l.2 ≠ uid) → res = []) ∧
      (∀ s, s ∈ res ↔ ∃ row ∈ db.prs,
        (row.pull_request_id, uid) ∈ db.reviewers ∧ s = PostgresRepo.toShort row) := by
  refine ⟨_, rfl, ?_, ?_⟩
  · intro hno
    simp only [List.flatMap_eq_nil_iff]
    intro r _
    rw [List.map_eq_nil_iff, List.filter_eq_nil_iff]
    intro l hl
    simp only [Bool.and_eq_true, decide_eq_true_eq, not_and]
    intro _
    exact hno l hl
  · intro s
    simp only [List.mem_flatMap, List.mem_map, List.mem_filter,
      Bool.and_eq_true, decide_eq_true_eq]
    constructor
    · rintro ⟨r, hr, l, ⟨hl, h1, h2⟩, rfl⟩
      refine ⟨r, hr, ?_, rfl⟩
      have : l = (r.pull_request_id, uid) := by
        cases l
        simp_all
      rwa [this] at hl
    · rintro ⟨r, hr, hl, rfl⟩
      exact ⟨r, hr, (r.pull_request_id, uid), ⟨hl, rfl, rfl⟩, rfl⟩

end PRReview

namespace PRReview

/-! ### Claim C5 -/

theorem createTeam_error_state {shuffle : List String → List String}
    {inj : String → Nat → List String → DB → Except String (List String)} {t : Team}
    {db : DB} {e : Err} {db' : DB}
    (h : Service.CreateTeam (postgresRepo shuffle inj) t db = (.error e, db')) : db' = db := by
  by_cases hmem : t.team_name ∈ db.teams
  · simp only [Service.CreateTeam, postgresRepo, PostgresRepo.CreateTeamWithMembers,
      if_pos hmem] at h
    split at h <;> exact (prod_eq_snd h).symm
  · simp only [Service.CreateTeam, postgresRepo, PostgresRepo.CreateTeamWithMembers,
      if_neg hmem] at h
    exact absurd h (by simp)

theorem getTeam_state (shuffle : List String → List String)
    (inj : String → Nat → List String → DB → Except String (List String)) (name : String) (db : DB) :
    (Service.GetTeam (postgresRepo shuffle inj) name db).2 = db := by
  by_cases hmem : name ∈ db.teams <;>
    simp [Service.GetTeam, postgresRepo, PostgresRepo.GetTeam, hmem]

theorem setUserIsActive_error_state {shuffle : List String → List String}
    {inj : String → Nat → List String → DB → Except String (List String)}
    {uid : String} {active : Bool} {db : DB} {e : Err} {db' : DB}
    (h : Service.SetUserIsActive (postgresRepo shuffle inj) uid active db = (.error e, db')) :
    db' = db := by
  rcases hf : db.users.find? (·.user_id = uid) with _ | u
  · simp only [Service.SetUserIsActive, postgresRepo, PostgresRepo.UpdateUserIsActive, hf] at h
    exact (prod_eq_snd h).symm
  · simp only [Service.SetUserIsActive, postgresRepo, PostgresRepo.UpdateUserIsActive, hf] at h
    exact absurd h (by simp)

theorem createPR_error_state {shuffle : List String → List String}
    {inj : String → Nat → List String → DB → Except String (List String)} {now : Nat}
    {id name author : String} {db : DB} {e : Err} {db' : DB}
    (h : Service.CreatePR (postgresRepo shuffle inj) now id name author db = (.error e, db')) :
    db' = db := by
  rw [createPR_run] at h
  split at h
  · exact (prod_eq_snd h).symm
  · split at h
    · exact (prod_eq_snd h).symm
    · split at h
      · split at h <;> rename_i heq
        · exact (prod_eq_snd h).symm
        · split at h <;> rename_i heq2
          · rcases createPullRequest_error heq2 with ⟨-, rfl⟩
            exact (prod_eq_snd h).symm
          · exact absurd h (by simp)
      · split at h <;> rename_i heq
        · rcases createPullRequest_error heq with ⟨-, rfl⟩
          exact (prod_eq_snd h).symm
        · exact absurd h (by simp)

theorem mergePR_error_state {shuffle : List String → List String}
    {inj : String → Nat → List String → DB → Except String (List String)} {now : Nat}
    {id : String} {db : DB} {e : Err} {db' : DB}
    (h : Service.MergePR (postgresRepo shuffle inj) now id db = (.error e, db')) :
    db' = db := by
  rw [mergePR_run] at h
  split at h <;> rename_i hfind
  · exact (prod_eq_snd h).symm
  · split at h
    · exact absurd h (by simp)
    · rw [setPRMerged_eq id (some now) db _ hfind] at h
      exact absurd h (by simp)

theorem reassign_error_state {shuffle : List String → List String}
    {inj : String → Nat → List String → DB → Except String (List String)}
    {prID old : String} {db : DB} {e : Err} {db' : DB}
    (h : Service.ReassignReviewer (postgresRepo shuffle inj) prID old db = (.error e, db')) :
    db' = db := by
  rw [reassign_run] at h
  split at h
  · exact (prod_eq_snd h).symm
  · split at h
    · exact (prod_eq_snd h).symm
    · split at h
      · exact (prod_eq_snd h).symm
      · split at h
        · exact (prod_eq_snd h).symm
        · split at h
          · split at h <;> rename_i heq
            · exact (prod_eq_snd h).symm
            · split at h
              · exact (prod_eq_snd h).symm
              · split at h <;> rename_i heq2
                · rcases setPRReviewers_error heq2 with ⟨-, rfl⟩
                  exact (prod_eq_snd h).symm
                · exact absurd h (by simp)
          · split at h
            · exact (prod_eq_snd h).symm
            · split at h <;> rename_i heq
              · rcases setPRReviewers_error heq with ⟨-, rfl⟩
                exact (prod_eq_snd h).symm
              · exact absurd h (by simp)

/-- C5: every public operation is atomic — whenever it reports an error,
the persisted state is exactly the input state: no reviewer link, team
row, member upsert or reviewer replacement survives a failing call. -/
theorem operations_atomic_on_error (shuffle : List String → List String)
    (inj : String → Nat → List String → DB → Except String (List String)) (now : Nat)
    (op : Op) (db : DB) (e : Err)
    (h : (runOp shuffle inj now op db).1 = .error e) :
    (runOp shuffle inj now op db).2 = db := by
  cases op with
  | createTeam t =>
      simp only [runOp] at h ⊢
      rcases hx : Service.CreateTeam (postgresRepo shuffle inj) t db with ⟨r, db2⟩
      rw [hx] at h
      have hr := except_map_error h
      subst hr
      exact createTeam_error_state hx
  | getTeam name =>
      simp only [runOp]
      exact getTeam_state shuffle inj name db
  | setUserIsActive uid active =>
      simp only [runOp] at h ⊢
      rcases hx : Service.SetUserIsActive (postgresRepo shuffle inj) uid active db with ⟨r, db2⟩
      rw [hx] at h
      have hr := except_map_error h
      subst hr
      exact setUserIsActive_error_state hx
  | createPR id name author =>
      simp only [runOp] at h ⊢
      rcases hx : Service.CreatePR (postgresRepo shuffle inj) now id name author db with ⟨r, db2⟩
      rw [hx] at h
      have hr := except_map_error h
      subst hr
      exact createPR_error_state hx
  | mergePR id =>
      simp only [runOp] at h ⊢
      rcases hx : Service.MergePR (postgresRepo shuffle inj) now id db with ⟨r, db2⟩
      rw [hx] at h
      have hr := except_map_error h
      subst hr
      exact mergePR_error_state hx
  | reassignReviewer prID old =>
      simp only [runOp] at h ⊢
      rcases hx : Service.ReassignReviewer (postgresRepo shuffle inj) prID old db with ⟨r, db2⟩
      rw [hx] at h
      have hr := except_map_error h
      subst hr
      exact reassign_error_state hx
  | getReviews uid =>
      simp only [runOp, Service.GetReviews, postgresRepo,
        PostgresRepo.GetPullRequestsByReviewer]
  | getReviewerStats =>
      simp only [runOp, Service.GetReviewerStats, postgresRepo,
        PostgresRepo.GetReviewerAssignmentStats]

end PRReview

namespace PRReview

/-! ### Claim C3 -/

/-- C3: `MergePR` is idempotent.  On a PR whose stored row is already
MERGED it succeeds, changes nothing, and returns the PR with its stored
`merged_at` (no timestamp update).  A first merge of an OPEN PR sets
status MERGED and `merged_at = now` while keeping the reviewer set intact,
and an immediately following `MergePR` — at any later time `now2` —
returns the very same PR (same `merged_at`) and leaves the state
unchanged. -/
theorem mergePR_idempotent (shuffle : List String → List String)
    (inj : String → Nat → List String → DB → Except String (List String)) (now now2 : Nat)
    (id : String) (db : DB) (row : PRRow)
    (h : db.prs.find? (·.pull_request_id = id) = some row) :
    (row.status = .MERGED →
      Service.MergePR (postgresRepo shuffle inj) now id db =
        (.ok (PostgresRepo.prOfRow row (PostgresRepo.reviewersOf db id)), db)) ∧
    (row.status = .OPEN →
      ∃ pr db1, Service.MergePR (postgresRepo shuffle inj) now id db = (.ok pr, db1) ∧
        pr.status = .MERGED ∧ pr.merged_at = some now ∧
        pr.assigned_reviewers = PostgresRepo.reviewersOf db id ∧
        db1.reviewers = db.reviewers ∧
        Service.MergePR (postgresRepo shuffle inj) now2 id db1 = (.ok pr, db1)) := by
  have hid : row.pull_request_id = id := by
    have := List.find?_some h
    simpa using this
  constructor
  · intro hm
    rw [mergePR_run]
    simp [h, hm]
  · intro hm
    rw [mergePR_run]
    simp only [h]
    rw [if_neg (by simp [hm])]
    rw [setPRMerged_eq id (some now) db row h]
    refine ⟨_, _, rfl, rfl, rfl, rfl, rfl, ?_⟩
    rw [mergePR_run]
    have hf2 : ((db.prs.map (fun r =>
        if r.pull_request_id = id then { r with status := PullRequestStatus.MERGED, merged_at := some now }
        else r)).find? (·.pull_request_id = id)) =
        some { row with status := .MERGED, merged_at := some now } := by
      rw [find?_map_pr _ (fun r => by by_cases hr : r.pull_request_id = id <;> simp [hr]) id db.prs, h]
      simp [hid]
    simp [hf2]
    rfl

end PRReview

namespace PRReview

/-! ### Claim C1 -/

theorem mem_eligibleIds {db : DB} {team : String} {exclude : List String} {rid : String}
    (h : rid ∈ PostgresRepo.eligibleIds db team exclude) :
    ∃ u ∈ db.users, u.user_id = rid ∧ u.team_name = team ∧
      u.is_active = true ∧ rid ∉ exclude := by
  unfold PostgresRepo.eligibleIds at h
  rcases List.mem_map.mp h with ⟨u, hu, rfl⟩
  rcases List.mem_filter.mp hu with ⟨hu1, hu2⟩
  simp only [decide_eq_true_eq] at hu2
  exact ⟨u, hu1, rfl, hu2.1, hu2.2.1, hu2.2.2⟩

theorem eligibleIds_nodup {db : DB} (hn : (db.users.map (·.user_id)).Nodup)
    (team : String) (exclude : List String) :
    (PostgresRepo.eligibleIds db team exclude).Nodup := by
  unfold PostgresRepo.eligibleIds
  exact (List.Sublist.map _ (List.filter_sublist db.users)).nodup hn

theorem mem_shuffle_take {shuffle : List String → List String}
    (hperm : ∀ l, (shuffle l).Perm l) {l : List String} {n : Nat} {x : String}
    (h : x ∈ (shuffle l).take n) : x ∈ l :=
  (hperm l).mem_iff.mp (mem_of_mem_take h)

theorem shuffle_take_nodup {shuffle : List String → List String}
    (hperm : ∀ l, (shuffle l).Perm l) {l : List String} {n : Nat}
    (h : l.Nodup) : ((shuffle l).take n).Nodup :=
  (List.take_sublist n _).nodup (((hperm l).nodup_iff).mpr h)

/-- C1 (amended): provided the author's id contains no single quote — so
the string-interpolated `NOT IN ('author')` fragment of the candidate
query parses as the intended id list — a successful `CreatePR` returns a
PR whose `assigned_reviewers` never contain the author, number at most 2
with no repeats, and are all active users of the author's team; moreover,
whenever the id is free and the author exists, the call succeeds — a
shortage of eligible candidates never makes it fail.  Without the
quote-free proviso both halves fail: see the counterexample, where an
author id carrying a quoted `OR` payload makes the query return the
author themselves. -/
theorem createPR_reviewers_spec (shuffle : List String → List String)
    (inj : String → Nat → List String → DB → Except String (List String))
    (hperm : ∀ l, (shuffle l).Perm l) (db : DB) (hWF : db.WF)
    (now : Nat) (id name author : String)
    (hq : PostgresRepo.breaksQuoting author = false) :
    (∀ pr db', Service.CreatePR (postgresRepo shuffle inj) now id name author db = (.ok pr, db') →
      author ∉ pr.assigned_reviewers ∧
      pr.assigned_reviewers.length ≤ 2 ∧
      pr.assigned_reviewers.Nodup ∧
      ∃ a, db.users.find? (·.user_id = author) = some a ∧
        ∀ rid ∈ pr.assigned_reviewers, ∃ u ∈ db.users,
          u.user_id = rid ∧ u.is_active = true ∧ u.team_name = a.team_name) ∧
    (db.prs.any (·.pull_request_id = id) = false →
      ∀ a, db.users.find? (·.user_id = author) = some a →
      ∃ pr db', Service.CreatePR (postgresRepo shuffle inj) now id name author db = (.ok pr, db')) := by
  obtain ⟨-, husers, -, -, hfk, -⟩ := hWF
  constructor
  · intro pr db' h
    rw [createPR_run] at h
    split at h
    · exact absurd h (by simp)
    · split at h <;> rename_i hfind
      · exact absurd h (by simp)
      · rename_i user
        rw [if_neg (by simp [hq])] at h
        split at h <;> rename_i heq
        · exact absurd h (by simp)
        · obtain ⟨h1, -⟩ := Prod.mk.injEq .. ▸ h
          have hpr := (Except.ok.injEq .. ▸ h1 : _ = pr)
          subst hpr
          refine ⟨?_, ?_, ?_, ?_⟩
          · intro hmem
            rcases mem_eligibleIds (mem_shuffle_take hperm hmem) with
              ⟨u, -, -, -, -, hnex⟩
            exact hnex (by simp)
          · rw [List.length_take]
            exact min_le_left _ _
          · exact shuffle_take_nodup hperm (eligibleIds_nodup husers _ _)
          · refine ⟨user, hfind, ?_⟩
            intro rid hr
            rcases mem_eligibleIds (mem_shuffle_take hperm hr) with
              ⟨u, hu, hid, hteam, hact, -⟩
            exact ⟨u, hu, hid, hact, hteam⟩
  · intro hnotex a hfind
    rw [createPR_run, if_neg (by simp [hnotex])]
    simp only [hfind]
    rw [if_neg (by simp [hq])]
    have hb : db.prs.any (·.pull_request_id = id) = false := hnotex
    have hc : (((shuffle (PostgresRepo.eligibleIds db a.team_name [author])).take 2).map
        (fun rid => (id, rid))).Nodup ∧
        ∀ l ∈ ((shuffle (PostgresRepo.eligibleIds db a.team_name [author])).take 2).map
          (fun rid => (id, rid)), l ∉ db.reviewers := by
      constructor
      · exact List.Nodup.map (fun x y hxy => by simpa using hxy)
          (shuffle_take_nodup hperm (eligibleIds_nodup husers _ _))
      · intro l hl hmem
        rcases List.mem_map.mp hl with ⟨rid, -, rfl⟩
        rcases hfk _ hmem with ⟨r, hr, hrid⟩
        have : db.prs.any (·.pull_request_id = id) = true :=
          List.any_eq_true.mpr ⟨r, hr, by simp [hrid]⟩
        rw [hnotex] at this
        cases this
    rw [show PostgresRepo.CreatePullRequest
        { id := id, name := name, author_id := author, status := PullRequestStatus.OPEN,
          assigned_reviewers := (shuffle (PostgresRepo.eligibleIds db a.team_name [author])).take 2,
          created_at := some now, merged_at := none } db = _ from createPullRequest_succeeds hb hc]
    exact ⟨_, _, rfl⟩

end PRReview

namespace PRReview

/-! ### Claim C2 -/

/-- C2 (amended): provided none of the excluded ids — the departing
reviewer, the PR's author and the PR's current reviewers — contains a
single quote, so the string-interpolated `NOT IN (...)` fragment of the
candidate query parses as the intended id list, a successful
`ReassignReviewer` never hands the PR to the author, to the departing
reviewer, or to anyone already in the PR's reviewer set before the call;
the replacement is an active user from the departing reviewer's team.
Without the quote-free proviso the guarantee fails: see the
counterexample, where an author id carrying a quoted `OR` payload lets
the query return the departing reviewer. -/
theorem reassignReviewer_excludes (shuffle : List String → List String)
    (inj : String → Nat → List String → DB → Except String (List String))
    (hperm : ∀ l, (shuffle l).Perm l) (db : DB) (prID old : String)
    (pr : PullRequest) (newR : String) (db' : DB)
    (hq : ∀ row, db.prs.find? (·.pull_request_id = prID) = some row →
      ([old, row.author_id] ++ PostgresRepo.reviewersOf db prID).any
        PostgresRepo.breaksQuoting = false)
    (h : Service.ReassignReviewer (postgresRepo shuffle inj) prID old db = (.ok (pr, newR), db')) :
    newR ≠ old ∧
    (∀ row, db.prs.find? (·.pull_request_id = prID) = some row → newR ≠ row.author_id) ∧
    newR ∉ PostgresRepo.reviewersOf db prID ∧
    ∃ ou, db.users.find? (·.user_id = old) = some ou ∧
      ∃ u ∈ db.users, u.user_id = newR ∧ u.is_active = true ∧ u.team_name = ou.team_name := by
  rw [reassign_run] at h
  split at h <;> rename_i hfind
  · exact absurd h (by simp)
  · rename_i row
    split at h
    · exact absurd h (by simp)
    · split at h
      · exact absurd h (by simp)
      · split at h <;> rename_i hfu
        · exact absurd h (by simp)
        · rename_i oldUser
          rw [if_neg (by rw [hq row hfind]; exact Bool.false_ne_true)] at h
          split at h <;> rename_i htake
          · exact absurd h (by simp)
          · rename_i newReviewer tail
            split at h <;> rename_i heq
            · exact absurd h (by simp)
            · obtain ⟨h1, -⟩ := Prod.mk.injEq .. ▸ h
              have h2 := (Except.ok.injEq .. ▸ h1 : _ = (pr, newR))
              obtain ⟨-, hnewR⟩ := Prod.mk.injEq .. ▸ h2
              subst hnewR
              have hmem : newReviewer ∈ (shuffle (PostgresRepo.eligibleIds db oldUser.team_name
                  ([old, row.author_id] ++ PostgresRepo.reviewersOf db prID))).take 1 := by
                rw [htake]
                exact List.mem_cons_self _ _
              rcases mem_eligibleIds (mem_shuffle_take hperm hmem) with
                ⟨u, hu, huid, hteam, hact, hnex⟩
              simp only [List.cons_append, List.nil_append, List.mem_cons, not_or] at hnex
              obtain ⟨hne_old, hne_auth, hne_set⟩ := hnex
              refine ⟨hne_old, ?_, hne_set, oldUser, hfu, u, hu, huid, hact, hteam⟩
              intro row' hrow'
              rw [hfind] at hrow'
              have : row = row' := Option.some.injEq .. ▸ hrow'
              rw [← this]
              exact hne_auth

/-- Counterexample to the unamended C1: the author id `injectedId`
carries a quoted OR-true payload, so the interpolated fragment closes
into the valid tautological clause `NOT IN (x) OR (1=1)` and the query
matches every user row; with the database behavior `orTrueInj` the
created PR assigns the author to review their own PR. -/
theorem createPR_injected_author_cex :
    PostgresRepo.breaksQuoting injectedId = true ∧
    (Service.CreatePR (postgresRepo idShuffle orTrueInj) 0 "pr1" "n" injectedId cexInjDB).1 =
      .ok ⟨"pr1", "n", injectedId, .OPEN, [injectedId, "u2"], some 0, none⟩ ∧
    injectedId ∈ [injectedId, "u2"] :=
  ⟨by decide, by decide, by decide⟩

/-- Counterexample to the unamended C2: in `cexInjDB2` the exclusion
list (departing reviewer "u2", author "a", reviewers "u2" and the
payload id) ends in the payload, the interpolated fragment closes into
the valid tautological clause `NOT IN (...) OR (1=1)`, and the one
random row drawn (`pickOldInj`) is the departing reviewer "u2" itself:
the call succeeds handing the PR back to "u2", who is also already in
the reviewer set. -/
theorem reassign_injected_old_cex :
    (["u2", "a"] ++ PostgresRepo.reviewersOf cexInjDB2 "pr1").any
        PostgresRepo.breaksQuoting = true ∧
    (Service.ReassignReviewer (postgresRepo idShuffle pickOldInj) "pr1" "u2" cexInjDB2).1 =
      .ok (⟨"pr1", "n", "a", .OPEN, ["u2", injectedId], some 0, none⟩, "u2") ∧
    "u2" ∈ PostgresRepo.reviewersOf cexInjDB2 "pr1" :=
  ⟨by decide, by decide, by decide⟩

end PRReview

namespace PRReview

/-! ### Claim C6 -/

theorem createTeam_state_fields (shuffle : List String → List String)
    (inj : String → Nat → List String → DB → Except String (List String)) (t : Team) (db : DB) :
    (Service.CreateTeam (postgresRepo shuffle inj) t db).2.prs = db.prs ∧
    (Service.CreateTeam (postgresRepo shuffle inj) t db).2.reviewers = db.reviewers := by
  by_cases hmem : t.team_name ∈ db.teams <;>
    simp [Service.CreateTeam, postgresRepo, PostgresRepo.CreateTeamWithMembers,
      hmem, Err.errorString]

theorem setUserIsActive_state_fields (shuffle : List String → List String)
    (inj : String → Nat → List String → DB → Except String (List String))
    (uid : String) (active : Bool) (db : DB) :
    (Service.SetUserIsActive (postgresRepo shuffle inj) uid active db).2.prs = db.prs ∧
    (Service.SetUserIsActive (postgresRepo shuffle inj) uid active db).2.reviewers = db.reviewers := by
  rcases hf : db.users.find? (·.user_id = uid) with _ | u <;>
    simp [Service.SetUserIsActive, postgresRepo, PostgresRepo.UpdateUserIsActive, hf]

theorem getReviews_state (shuffle : List String → List String)
    (inj : String → Nat → List String → DB → Except String (List String)) (uid : String) (db : DB) :
    (Service.GetReviews (postgresRepo shuffle inj) uid db).2 = db := rfl

theorem getStats_state (shuffle : List String → List String)
    (inj : String → Nat → List String → DB → Except String (List String)) (db : DB) :
    (Service.GetReviewerStats (postgresRepo shuffle inj) db).2 = db := rfl

/-- C6: a merged PR is frozen.  In any state whose stored row for `p` is
MERGED, every public operation leaves that row (status and `merged_at`
included) and its reviewer links untouched; `MergePR` on it is a no-op
returning the stored PR, and `ReassignReviewer` on it fails with
`PRMerged` without changing the state.  In particular no operation ever
moves a PR from MERGED back to OPEN. -/
theorem merged_pr_frozen (shuffle : List String → List String)
    (inj : String → Nat → List String → DB → Except String (List String)) (now : Nat) (op : Op)
    (db : DB) (p : String) (row : PRRow)
    (hrow : db.prs.find? (·.pull_request_id = p) = some row)
    (hm : row.status = .MERGED) :
    (runOp shuffle inj now op db).2.prs.find? (·.pull_request_id = p) = some row ∧
    (runOp shuffle inj now op db).2.reviewers.filter (·.1 = p) = db.reviewers.filter (·.1 = p) ∧
    Service.MergePR (postgresRepo shuffle inj) now p db =
      (.ok (PostgresRepo.prOfRow row (PostgresRepo.reviewersOf db p)), db) ∧
    ∀ old, Service.ReassignReviewer (postgresRepo shuffle inj) p old db =
      (.error ErrPRMerged, db) := by
  have hpid : row.pull_request_id = p := by simpa using List.find?_some hrow
  have hmerge : Service.MergePR (postgresRepo shuffle inj) now p db =
      (.ok (PostgresRepo.prOfRow row (PostgresRepo.reviewersOf db p)), db) := by
    rw [mergePR_run]
    simp [hrow, hm]
  have hreassign : ∀ old, Service.ReassignReviewer (postgresRepo shuffle inj) p old db =
      (.error ErrPRMerged, db) := by
    intro old
    rw [reassign_run]
    simp [hrow, hm]
  have hstate : (runOp shuffle inj now op db).2.prs.find? (·.pull_request_id = p) = some row ∧
      (runOp shuffle inj now op db).2.reviewers.filter (·.1 = p) =
        db.reviewers.filter (·.1 = p) := by
    cases op with
    | createTeam t =>
        obtain ⟨h1, h2⟩ := createTeam_state_fields shuffle inj t db
        simp only [runOp, h1, h2]
        exact ⟨hrow, trivial⟩
    | getTeam name =>
        simp only [runOp, getTeam_state]
        exact ⟨hrow, trivial⟩
    | setUserIsActive uid active =>
        obtain ⟨h1, h2⟩ := setUserIsActive_state_fields shuffle inj uid active db
        simp only [runOp, h1, h2]
        exact ⟨hrow, trivial⟩
    | getReviews uid =>
        simp only [runOp, getReviews_state]
        exact ⟨hrow, trivial⟩
    | getReviewerStats =>
        simp only [runOp, getStats_state]
        exact ⟨hrow, trivial⟩
    | createPR id' name' author' =>
        simp only [runOp]
        rw [createPR_run]
        split
        · exact ⟨hrow, rfl⟩
        · split
          · exact ⟨hrow, rfl⟩
          · split
            · split <;> rename_i heq
              · exact ⟨hrow, rfl⟩
              · split <;> rename_i heq2
                · rcases createPullRequest_error heq2 with ⟨-, rfl⟩
                  exact ⟨hrow, rfl⟩
                · obtain ⟨hdb2, hfree⟩ := createPullRequest_ok heq2
                  subst hdb2
                  have hne : p ≠ id' := by
                    intro hpe
                    have : db.prs.any (·.pull_request_id = id') = true :=
                      List.any_eq_true.mpr
                        ⟨row, List.mem_of_find?_eq_some hrow, by simp [hpid, hpe]⟩
                    rw [hfree] at this
                    cases this
                  constructor
                  · exact find?_append_some hrow
                  · show ((db.reviewers ++ _).filter _) = _
                    rw [List.filter_append, filter_links_map_other _ hne, List.append_nil]
            · split <;> rename_i heq
              · rcases createPullRequest_error heq with ⟨-, rfl⟩
                exact ⟨hrow, rfl⟩
              · obtain ⟨hdb2, hfree⟩ := createPullRequest_ok heq
                subst hdb2
                have hne : p ≠ id' := by
                  intro hpe
                  have : db.prs.any (·.pull_request_id = id') = true :=
                    List.any_eq_true.mpr
                      ⟨row, List.mem_of_find?_eq_some hrow, by simp [hpid, hpe]⟩
                  rw [hfree] at this
                  cases this
                constructor
                · exact find?_append_some hrow
                · show ((db.reviewers ++ _).filter _) = _
                  rw [List.filter_append, filter_links_map_other _ hne, List.append_nil]
    | mergePR q =>
        simp only [runOp]
        rw [mergePR_run]
        split <;> rename_i hfq
        · exact ⟨hrow, rfl⟩
        · rename_i rowq
          split
          · exact ⟨hrow, rfl⟩
          · rename_i hnm
            rw [setPRMerged_eq q (some now) db rowq hfq]
            have hne : ¬ row.pull_request_id = q := by
              intro hpq
              have hq : p = q := by rw [← hpid, hpq]
              rw [← hq, hrow] at hfq
              exact hnm (by rw [← (Option.some.injEq .. ▸ hfq : row = rowq)]; exact hm)
            constructor
            · show ((db.prs.map _).find? _) = some row
              rw [find?_map_pr _
                (fun r => by by_cases hr : r.pull_request_id = q <;> simp [hr]) p db.prs, hrow]
              simp [hne]
            · rfl
    | reassignReviewer q old =>
        simp only [runOp]
        rw [reassign_run]
        split <;> rename_i hfq
        · exact ⟨hrow, rfl⟩
        · rename_i rowq
          split <;> rename_i hs
          · exact ⟨hrow, rfl⟩
          · split
            · exact ⟨hrow, rfl⟩
            · split
              · exact ⟨hrow, rfl⟩
              · rename_i oldUser
                split
                · split <;> rename_i hinj
                  · exact ⟨hrow, rfl⟩
                  · split
                    · exact ⟨hrow, rfl⟩
                    · rename_i newR tail
                      split <;> rename_i heq2
                      · rcases setPRReviewers_error heq2 with ⟨-, rfl⟩
                        exact ⟨hrow, rfl⟩
                      · have hdb2 := setPRReviewers_ok heq2
                        subst hdb2
                        have hqid : rowq.pull_request_id = q := by
                          simpa using List.find?_some hfq
                        have hne : p ≠ rowq.pull_request_id := by
                          intro hpe
                          rw [hqid] at hpe
                          rw [← hpe, hrow] at hfq
                          exact hs (by rw [← (Option.some.injEq .. ▸ hfq : row = rowq)]; exact hm)
                        constructor
                        · exact hrow
                        · show ((db.reviewers.filter _ ++ _).filter _) = _
                          rw [List.filter_append, filter_links_map_other _ hne,
                            List.append_nil, filter_after_delete_other _ hne]
                · split
                  · exact ⟨hrow, rfl⟩
                  · rename_i newR tail
                    split <;> rename_i heq
                    · rcases setPRReviewers_error heq with ⟨-, rfl⟩
                      exact ⟨hrow, rfl⟩
                    · have hdb2 := setPRReviewers_ok heq
                      subst hdb2
                      have hqid : rowq.pull_request_id = q := by
                        simpa using List.find?_some hfq
                      have hne : p ≠ rowq.pull_request_id := by
                        intro hpe
                        rw [hqid] at hpe
                        rw [← hpe, hrow] at hfq
                        exact hs (by rw [← (Option.some.injEq .. ▸ hfq : row = rowq)]; exact hm)
                      constructor
                      · exact hrow
                      · show ((db.reviewers.filter _ ++ _).filter _) = _
                        rw [List.filter_append, filter_links_map_other _ hne,
                          List.append_nil, filter_after_delete_other _ hne]
  exact ⟨hstate.1, hstate.2, hmerge, hreassign⟩

end PRReview

namespace PRReview

/-! ### Claim C7 -/

theorem map_update_team {T : String} {m : TeamMember} (l : List User) :
    (l.map (fun u => if u.user_id = m.user_id then
        { user_id := m.user_id, username := m.username,
          team_name := T, is_active := m.is_active } else u)).map (·.user_id) =
      l.map (·.user_id) := by
  rw [List.map_map]
  apply List.map_congr_left
  intro u _
  by_cases h0 : u.user_id = m.user_id <;> simp [h0]

theorem update_filter_perm (T : String) (m : TeamMember) :
    ∀ us : List User, (us.map (·.user_id)).Nodup →
    us.any (·.user_id = m.user_id) = true →
    (∀ u ∈ us, u.team_name = T → u.user_id ≠ m.user_id) →
    (((us.map (fun u => if u.user_id = m.user_id then
        { user_id := m.user_id, username := m.username,
          team_name := T, is_active := m.is_active }
      else u)).filter (·.team_name = T)).map PostgresRepo.toTeamMember).Perm
      (((us.filter (·.team_name = T)).map PostgresRepo.toTeamMember) ++ [m]) := by
  intro us
  induction us with
  | nil =>
      intro _ hmem _
      cases hmem
  | cons a l ih =>
      intro hids hmem hT
      obtain ⟨hal0, hids'⟩ : (∀ x ∈ l, ¬x.user_id = a.user_id) ∧
          (l.map (·.user_id)).Nodup := by simpa using hids
      by_cases ha : a.user_id = m.user_id
      · have hrest : ∀ u ∈ l, u.user_id ≠ m.user_id := by
          intro u hu he
          exact hal0 u hu (he.trans ha.symm)
        have hmap := map_update_user_eq_self m.user_id
          { user_id := m.user_id, username := m.username,
            team_name := T, is_active := m.is_active } l hrest
        have haT : ¬ a.team_name = T := fun he => (hT a (by simp) he) ha
        simp only [List.map_cons, if_pos ha, List.filter_cons, hmap]
        rw [if_pos (by simp), if_neg (by simpa using haT)]
        simp only [List.map_cons, PostgresRepo.toTeamMember]
        exact (List.perm_append_singleton _ _).symm
      · have hmem' : l.any (·.user_id = m.user_id) = true := by
          rcases List.any_eq_true.mp hmem with ⟨u, hu, hp⟩
          rcases List.mem_cons.mp hu with rfl | hu'
          · exact absurd (by simpa using hp) ha
          · exact List.any_eq_true.mpr ⟨u, hu', hp⟩
        have hT' : ∀ u ∈ l, u.team_name = T → u.user_id ≠ m.user_id :=
          fun u hu => hT u (List.mem_cons_of_mem _ hu)
        by_cases haT : a.team_name = T
        · simp only [List.map_cons, if_neg ha, List.filter_cons]
          rw [if_pos (by simpa using haT), if_pos (by simpa using haT)]
          simp only [List.map_cons, List.cons_append]
          exact (ih hids' hmem' hT').cons _
        · simp only [List.map_cons, if_neg ha, List.filter_cons]
          rw [if_neg (by simpa using haT), if_neg (by simpa using haT)]
          exact ih hids' hmem' hT'

theorem mem_upsertUser {T : String} {m : TeamMember} {us : List User} {u : User}
    (h : u ∈ PostgresRepo.upsertUser T us m) :
    u = { user_id := m.user_id, username := m.username,
          team_name := T, is_active := m.is_active } ∨
    (u ∈ us ∧ u.user_id ≠ m.user_id) := by
  unfold PostgresRepo.upsertUser at h
  split at h <;> rename_i hany
  · rcases List.mem_map.mp h with ⟨u0, hu0, rfl⟩
    by_cases h0 : u0.user_id = m.user_id
    · left
      simp [h0]
    · right
      simp only [h0, if_false]
      exact ⟨hu0, h0⟩
  · rcases List.mem_append.mp h with hu | hu
    · right
      refine ⟨hu, fun he => ?_⟩
      exact hany (List.any_eq_true.mpr ⟨u, hu, by simp [he]⟩)
    · left
      simpa using hu

theorem upsertUser_nodup {T : String} {m : TeamMember} {us : List User}
    (h : (us.map (·.user_id)).Nodup) :
    ((PostgresRepo.upsertUser T us m).map (·.user_id)).Nodup := by
  unfold PostgresRepo.upsertUser
  split <;> rename_i hany
  · rw [map_update_team]
    exact h
  · rw [List.map_append]
    refine ((List.perm_append_singleton _ _).nodup_iff).mpr ?_
    rw [List.nodup_cons]
    refine ⟨?_, h⟩
    intro hmem
    rcases List.mem_map.mp hmem with ⟨u, hu, he⟩
    exact hany (List.any_eq_true.mpr ⟨u, hu, by simp [he]⟩)

theorem upsert_filter_perm (T : String) (m : TeamMember) (us : List User)
    (hids : (us.map (·.user_id)).Nodup)
    (hT : ∀ u ∈ us, u.team_name = T → u.user_id ≠ m.user_id) :
    (((PostgresRepo.upsertUser T us m).filter (·.team_name = T)).map
        PostgresRepo.toTeamMember).Perm
      (((us.filter (·.team_name = T)).map PostgresRepo.toTeamMember) ++ [m]) := by
  unfold PostgresRepo.upsertUser
  split <;> rename_i hany
  · exact update_filter_perm T m us hids hany hT
  · rw [List.filter_append, List.map_append]
    simp [PostgresRepo.toTeamMember]

theorem upsert_foldl_perm (T : String) (ms : List TeamMember) :
    ∀ us : List User, (us.map (·.user_id)).Nodup →
    (ms.map (·.user_id)).Nodup →
    (∀ m ∈ ms, ∀ u ∈ us, u.team_name = T → u.user_id ≠ m.user_id) →
    (((ms.foldl (PostgresRepo.upsertUser T) us).filter (·.team_name = T)).map
        PostgresRepo.toTeamMember).Perm
      (((us.filter (·.team_name = T)).map PostgresRepo.toTeamMember) ++ ms) := by
  induction ms with
  | nil =>
      intro us _ _ _
      simp
  | cons m ms ih =>
      intro us hids hms hdisj
      have h1 := upsert_filter_perm T m us hids
        (fun u hu ht => hdisj m (by simp) u hu ht)
      have hids' : ((PostgresRepo.upsertUser T us m).map (·.user_id)).Nodup :=
        upsertUser_nodup hids
      obtain ⟨hmid, hms'⟩ : (∀ x ∈ ms, ¬x.user_id = m.user_id) ∧
          (ms.map (·.user_id)).Nodup := by simpa using hms
      have hdisj' : ∀ m' ∈ ms, ∀ u ∈ PostgresRepo.upsertUser T us m,
          u.team_name = T → u.user_id ≠ m'.user_id := by
        intro m' hm' u hu ht he
        rcases mem_upsertUser hu with rfl | ⟨hus, -⟩
        · exact hmid m' hm' (he.symm.trans rfl)
        · exact hdisj m' (List.mem_cons_of_mem _ hm') u hus ht he
      have hchain := (ih (PostgresRepo.upsertUser T us m) hids' hms' hdisj').trans
        (h1.append_right ms)
      rw [List.append_assoc] at hchain
      exact hchain

/-- C7: for a valid `CreateTeam` input (duplicate-free member ids) that
succeeds on a well-formed state, the call returns the submitted team, and
an immediately following `GetTeam` with the same name returns a team whose
member list is a permutation of the submitted members — order-irrelevant
set equality of `(user_id, username, is_active)` entries. -/
theorem createTeam_getTeam_roundtrip (shuffle : List String → List String)
    (inj : String → Nat → List String → DB → Except String (List String))
    (db : DB) (hWF : db.WF) (t : Team)
    (hm : (t.members.map (·.user_id)).Nodup)
    (team : Team) (db1 : DB)
    (h : Service.CreateTeam (postgresRepo shuffle inj) t db = (.ok team, db1)) :
    team = t ∧
    ∃ t', Service.GetTeam (postgresRepo shuffle inj) t.team_name db1 = (.ok t', db1) ∧
      t'.team_name = t.team_name ∧ t'.members.Perm t.members := by
  obtain ⟨-, husers, -, -, -, hteamfk⟩ := hWF
  by_cases hmem : t.team_name ∈ db.teams
  · simp only [Service.CreateTeam, postgresRepo, PostgresRepo.CreateTeamWithMembers,
      if_pos hmem] at h
    split at h <;> exact absurd h (by simp)
  · simp only [Service.CreateTeam, postgresRepo, PostgresRepo.CreateTeamWithMembers,
      if_neg hmem] at h
    obtain ⟨h1, h2⟩ := Prod.mk.injEq .. ▸ h
    have hteam : t = team := Except.ok.injEq .. ▸ h1
    subst h2
    refine ⟨hteam.symm, ?_⟩
    have hmem1 : t.team_name ∈ (db.teams ++ [t.team_name]) := by simp
    simp only [Service.GetTeam, postgresRepo, PostgresRepo.GetTeam]
    rw [if_pos hmem1]
    refine ⟨_, rfl, rfl, ?_⟩
    have hdisj : ∀ m ∈ t.members, ∀ u ∈ db.users,
        u.team_name = t.team_name → u.user_id ≠ m.user_id := by
      intro m _ u hu ht _
      exact absurd (ht ▸ hteamfk u hu) hmem
    have hperm := upsert_foldl_perm t.team_name t.members db.users husers hm hdisj
    have hnil : db.users.filter (·.team_name = t.team_name) = [] := by
      rw [List.filter_eq_nil_iff]
      intro u hu
      simp only [decide_eq_true_eq]
      intro ht
      exact hmem (ht ▸ hteamfk u hu)
    rw [hnil] at hperm
    simpa using hperm

end PRReview

namespace PRReview

/-! ### Claim C8 -/

/-- What `GetReviewerAssignmentStats` computes: one entry per distinct
reviewer id currently in the link table, with the exact row count, sorted
by descending count. -/
theorem getReviewerStats_spec (shuffle : List String → List String)
    (inj : String → Nat → List String → DB → Except String (List String)) (db : DB)
    (stats : List ReviewerStat)
    (h : (Service.GetReviewerStats (postgresRepo shuffle inj) db).1 = .ok stats) :
    (Service.GetReviewerStats (postgresRepo shuffle inj) db).2 = db ∧
    (∀ s ∈ stats, s.assignments = (db.reviewers.filter (·.2 = s.user_id)).length) ∧
    (∀ uid, uid ∈ stats.map (·.user_id) ↔ uid ∈ db.reviewers.map (·.2)) ∧
    (stats.map (·.user_id)).Nodup ∧
    stats.Pairwise (fun a b => b.assignments ≤ a.assignments) := by
  have h2 : (((db.reviewers.map (·.2)).dedup).map (fun u =>
      ({ user_id := u, assignments := (db.reviewers.filter (·.2 = u)).length } : ReviewerStat))).insertionSort
        (fun a b => b.assignments ≤ a.assignments) = stats :=
    Except.ok.injEq .. ▸ (h : _)
  subst h2
  set base := ((db.reviewers.map (·.2)).dedup).map (fun u =>
    ({ user_id := u, assignments := (db.reviewers.filter (·.2 = u)).length } : ReviewerStat))
    with hbase
  have hperm : (base.insertionSort (fun a b => b.assignments ≤ a.assignments)).Perm base :=
    List.perm_insertionSort _ base
  refine ⟨rfl, ?_, ?_, ?_, ?_⟩
  · intro s hs
    have hb : s ∈ base := hperm.mem_iff.mp hs
    rw [hbase] at hb
    rcases List.mem_map.mp hb with ⟨u, _, rfl⟩
    rfl
  · intro uid
    rw [(hperm.map (·.user_id)).mem_iff, hbase, List.map_map]
    have hco : ((fun s : ReviewerStat => s.user_id) ∘ (fun u =>
        ({ user_id := u, assignments := (db.reviewers.filter (·.2 = u)).length } : ReviewerStat))) =
        fun u => u := rfl
    rw [hco, List.map_id', List.mem_dedup]
  · refine ((hperm.map (·.user_id)).nodup_iff).mpr ?_
    rw [hbase, List.map_map]
    have hco : ((fun s : ReviewerStat => s.user_id) ∘ (fun u =>
        ({ user_id := u, assignments := (db.reviewers.filter (·.2 = u)).length } : ReviewerStat))) =
        fun u => u := rfl
    rw [hco, List.map_id']
    exact List.nodup_dedup _
  · exact List.sorted_insertionSort _ base

/-- C8 (amended): `GetReviewerStats` reports, for every user CURRENTLY
appearing in at least one (PR, reviewer) link row, exactly one entry whose
`assignments` is the exact number of link rows bearing their id, and the
list is sorted by that count in descending order (ties in arbitrary
order).  Users whose links were all deleted by reassignment are not
reported. -/
theorem reviewerStats_current_links (shuffle : List String → List String)
    (inj : String → Nat → List String → DB → Except String (List String)) (db : DB)
    (stats : List ReviewerStat)
    (h : (Service.GetReviewerStats (postgresRepo shuffle inj) db).1 = .ok stats) :
    (Service.GetReviewerStats (postgresRepo shuffle inj) db).2 = db ∧
    (∀ s ∈ stats, s.assignments = (db.reviewers.filter (·.2 = s.user_id)).length) ∧
    (∀ uid, uid ∈ stats.map (·.user_id) ↔ uid ∈ db.reviewers.map (·.2)) ∧
    (stats.map (·.user_id)).Nodup ∧
    stats.Pairwise (fun a b => b.assignments ≤ a.assignments) :=
  getReviewerStats_spec shuffle inj db stats h

/-- C8 counterexample: starting from `exampleDB`, `CreatePR` assigns "u2"
(the link row ("pr1","u2") is created), a reassignment then replaces "u2"
by "u4" — so "u2" has ever been assigned as a reviewer — yet
`GetReviewerStats` on the resulting state reports no entry for "u2" at
all: the stats cover only current link rows, not every user ever
assigned. -/
theorem reviewerStats_ever_assigned_cex :
    ("pr1", "u2") ∈
      (Service.CreatePR (postgresRepo idShuffle noInj) 5 "pr1" "feat" "u1" exampleDB).2.reviewers ∧
    (Service.CreatePR (postgresRepo idShuffle noInj) 5 "pr1" "feat" "u1" exampleDB).2 = exampleDB1 ∧
    (Service.ReassignReviewer (postgresRepo idShuffle noInj) "pr1" "u2" exampleDB1).2 = exampleDB2 ∧
    (Service.GetReviewerStats (postgresRepo idShuffle noInj) exampleDB2).1 = .ok statsW ∧
    "u2" ∉ statsW.map (·.user_id) := by
  refine ⟨by decide, by decide, by decide, by decide, by decide⟩

/-! ### Witnesses -/

/-- Witness for C1 at a concrete state: the success half applied to
`exampleDB`, with every hypothesis discharged by `decide`. -/
theorem createPR_reviewers_spec_witness :
    ∃ pr db', Service.CreatePR (postgresRepo idShuffle noInj) 5 "pr1" "feat" "u1" exampleDB =
      (.ok pr, db') :=
  (createPR_reviewers_spec idShuffle noInj (fun l => List.Perm.refl l) exampleDB (by decide)
    5 "pr1" "feat" "u1" (by decide)).2 (by decide) ⟨"u1", "a", "backend", true⟩ (by decide)

/-- Witness for C2 at a concrete successful reassignment. -/
theorem reassignReviewer_excludes_witness :
    "u4" ≠ "u2" ∧
    (∀ row, exampleDB1.prs.find? (·.pull_request_id = "pr1") = some row →
      "u4" ≠ row.author_id) ∧
    "u4" ∉ PostgresRepo.reviewersOf exampleDB1 "pr1" ∧
    ∃ ou, exampleDB1.users.find? (·.user_id = "u2") = some ou ∧
      ∃ u ∈ exampleDB1.users, u.user_id = "u4" ∧ u.is_active = true ∧
        u.team_name = ou.team_name :=
  reassignReviewer_excludes idShuffle noInj (fun l => List.Perm.refl l) exampleDB1 "pr1" "u2"
    ⟨"pr1", "feat", "u1", .OPEN, ["u4", "u3"], some 5, none⟩ "u4" exampleDB2
    (by
      intro row hrow
      rw [show exampleDB1.prs.find? (·.pull_request_id = "pr1") =
          some ⟨"pr1", "feat", "u1", .OPEN, some 5, none⟩ from by decide] at hrow
      cases hrow
      decide)
    (by decide)

/-- Witness for C3: a first merge of the OPEN "pr1" followed by a second
merge at a later time. -/
theorem mergePR_idempotent_witness :
    ∃ pr db1, Service.MergePR (postgresRepo idShuffle noInj) 7 "pr1" exampleDB1 = (.ok pr, db1) ∧
      pr.status = .MERGED ∧ pr.merged_at = some 7 ∧
      pr.assigned_reviewers = PostgresRepo.reviewersOf exampleDB1 "pr1" ∧
      db1.reviewers = exampleDB1.reviewers ∧
      Service.MergePR (postgresRepo idShuffle noInj) 9 "pr1" db1 = (.ok pr, db1) :=
  (mergePR_idempotent idShuffle noInj 7 9 "pr1" exampleDB1
    ⟨"pr1", "feat", "u1", .OPEN, some 5, none⟩ (by decide)).2 (by decide)

/-- Witness for C5: a failing merge of a nonexistent PR leaves the state
unchanged. -/
theorem operations_atomic_on_error_witness :
    (runOp idShuffle noInj 0 (.mergePR "nope") exampleDB).2 = exampleDB :=
  operations_atomic_on_error idShuffle noInj 0 (.mergePR "nope") exampleDB ErrNotFound (by decide)

/-- Witness for C6 at the concrete merged PR of `mergedDB`. -/
theorem merged_pr_frozen_witness :
    (runOp idShuffle noInj 3 (.mergePR "prM") mergedDB).2.prs.find?
      (·.pull_request_id = "prM") = some mergedRow ∧
    (runOp idShuffle noInj 3 (.mergePR "prM") mergedDB).2.reviewers.filter (·.1 = "prM") =
      mergedDB.reviewers.filter (·.1 = "prM") ∧
    Service.MergePR (postgresRepo idShuffle noInj) 3 "prM" mergedDB =
      (.ok (PostgresRepo.prOfRow mergedRow (PostgresRepo.reviewersOf mergedDB "prM")),
        mergedDB) ∧
    ∀ old, Service.ReassignReviewer (postgresRepo idShuffle noInj) "prM" old mergedDB =
      (.error ErrPRMerged, mergedDB) :=
  merged_pr_frozen idShuffle noInj 3 (.mergePR "prM") mergedDB "prM" mergedRow
    (by decide) (by decide)

/-- Witness for C7: creating team "front" on `exampleDB` and reading it
back. -/
theorem createTeam_getTeam_roundtrip_witness :
    frontTeam = frontTeam ∧
    ∃ t', Service.GetTeam (postgresRepo idShuffle noInj) frontTeam.team_name exampleDBfront =
        (.ok t', exampleDBfront) ∧
      t'.team_name = frontTeam.team_name ∧ t'.members.Perm frontTeam.members :=
  createTeam_getTeam_roundtrip idShuffle noInj exampleDB (by decide) frontTeam (by decide)
    frontTeam exampleDBfront (by decide)

/-- Witness for the amended C8, at the stats of `exampleDB2`. -/
theorem reviewerStats_current_links_witness :
    (Service.GetReviewerStats (postgresRepo idShuffle noInj) exampleDB2).2 = exampleDB2 ∧
    (∀ s ∈ statsW, s.assignments = (exampleDB2.reviewers.filter (·.2 = s.user_id)).length) ∧
    (∀ uid, uid ∈ statsW.map (·.user_id) ↔ uid ∈ exampleDB2.reviewers.map (·.2)) ∧
    (statsW.map (·.user_id)).Nodup ∧
    statsW.Pairwise (fun a b => b.assignments ≤ a.assignments) :=
  reviewerStats_current_links idShuffle noInj exampleDB2 statsW (by decide)

/-- Witness for C9 at an id with no user record at all. -/
theorem getReviews_total_witness :
    ∃ res, Service.GetReviews (postgresRepo idShuffle noInj) "ghost" exampleDB2 =
        (.ok res, exampleDB2) ∧
      ((∀ l ∈ exampleDB2.reviewers, l.2 ≠ "ghost") → res = []) ∧
      (∀ s, s ∈ res ↔ ∃ row ∈ exampleDB2.prs,
        (row.pull_request_id, "ghost") ∈ exampleDB2.reviewers ∧ s = PostgresRepo.toShort row) :=
  getReviews_total idShuffle noInj "ghost" exampleDB2

/-- Witness for C10 at concrete calls. -/
theorem exclusion_clause_never_empty_witness :
    (Service.CreatePR (postgresRepo idShuffle noInj) 5 "pr2" "x" "u1" exampleDB).1 ≠
      .error emptyExclusionErr ∧
    (Service.ReassignReviewer (postgresRepo idShuffle noInj) "pr1" "u2" exampleDB).1 ≠
      .error emptyExclusionErr :=
  exclusion_clause_never_empty idShuffle noInj 5 "pr2" "x" "u1" "pr1" "u2" exampleDB

end PRReview
